import Mathlib

/-!
Verification development for the Themis schedule optimizer.

The definitions below are a shallow embedding of the optimization core of
the repository: `src/lib/genetic_algo.py` (class `ScheduleGA`) and
`src/lib/gemini_ai.py` (classes `GeminiScheduler` and `HybridOptimizer`),
together with the DEAP library operators the code registers
(`tools.cxTwoPoint`, `tools.selTournament`, `tools.selBest`,
`tools.HallOfFame(1)`).

Python `random.*` draws are modelled by explicit oracle arguments: each
draw site receives a natural number (reduced modulo the size of the
sampled range, so every outcome the Python RNG can produce is reachable)
or a rational number standing for `random.random()`.  Python exceptions
(IndexError / ZeroDivisionError from indexing an empty list,
ValueError from `max()` / `random.sample` / `random.randint` on empty
ranges, IndexError from `hof[0]` on an empty hall of fame, ValueError for
an unknown optimization method) are modelled with `Except PyErr`.
Fitness scores, probabilities and weights are modelled with the exact
rational type `Q` below (the Python floats in play are small exact
decimals).
-/

namespace Themis

/-- Python exception kinds that the embedded code can raise.
`configurationError` is the error kind the specification's error table
expects for invalid configuration; it is part of the model so that
claims about it can be stated (the embedded code never produces it). -/
inductive PyErr where
  | emptyListAccess
  | emptySequence
  | hofIndexError
  | valueErrorUnknownMethod
  | configurationError
deriving DecidableEq, Repr

deriving instance DecidableEq for Except

/-- Models `random.choice(l)` (and `l[i % len(l)]`): an arbitrary oracle
draw `r` selects `l[r % len l]`; on an empty list Python raises
(IndexError / ZeroDivisionError). -/
def pyChoice {α : Type} (l : List α) (r : Nat) : Except PyErr α :=
  match l[r % l.length]? with
  | some a => .ok a
  | none => .error .emptyListAccess

/-- Models `random.randint(1, hi)`: raises ValueError when `hi < 1`. -/
def pyRandint1 (hi r : Nat) : Except PyErr Nat :=
  if hi = 0 then .error .emptySequence else .ok (1 + r % hi)

/-- Models `random.randint(0, n-1)` for a length `n`: raises when `n = 0`. -/
def pyRandint0 (n r : Nat) : Except PyErr Nat :=
  if n = 0 then .error .emptySequence else .ok (r % n)

/-- Models `random.sample(range(n), 2)`: two distinct indices below `n`;
raises ValueError when `n < 2`.  Any ordered pair of distinct indices is
reachable by a suitable choice of the oracle values `r1 r2`. -/
def pySample2 (n r1 r2 : Nat) : Except PyErr (Nat × Nat) :=
  if 2 ≤ n then
    let i := r1 % n
    let j0 := r2 % (n - 1)
    .ok (i, if i ≤ j0 then j0 + 1 else j0)
  else .error .emptySequence

/-- Exact rational numbers modelling the Python floats in play (scores,
probabilities, weights — all exact decimals).  A custom unnormalized
representation is used so that every arithmetic operation reduces inside
the kernel; the denominator is kept positive so that the
cross-multiplication order is a genuine total preorder. -/
structure Q where
  num : Int
  den : Nat
  dpos : 0 < den

/-- Build `n / d`, defaulting the denominator to 1 if a zero slips in. -/
def qmk (n : Int) (d : Nat) : Q :=
  if h : 0 < d then ⟨n, d, h⟩ else ⟨n, 1, Nat.one_pos⟩

/-- The rational `n / 1`. -/
def qofNat (n : Nat) : Q := ⟨n, 1, Nat.one_pos⟩

def qadd (a b : Q) : Q :=
  ⟨a.num * b.den + b.num * a.den, a.den * b.den, Nat.mul_pos a.dpos b.dpos⟩

def qsub (a b : Q) : Q :=
  ⟨a.num * b.den - b.num * a.den, a.den * b.den, Nat.mul_pos a.dpos b.dpos⟩

def qmul (a b : Q) : Q :=
  ⟨a.num * b.num, a.den * b.den, Nat.mul_pos a.dpos b.dpos⟩

/-- Exact division.  The embedded formulas only ever divide by strictly
positive values (`1 + variance`, `1 + |score|`); division by zero (which
would raise in Python) is given the junk value 0. -/
def qdiv (a b : Q) : Q :=
  if h : 0 < b.num then
    ⟨a.num * b.den, a.den * b.num.toNat,
      Nat.mul_pos a.dpos (by omega)⟩
  else if h2 : b.num < 0 then
    ⟨-(a.num * b.den), a.den * b.num.natAbs,
      Nat.mul_pos a.dpos (by omega)⟩
  else ⟨0, 1, Nat.one_pos⟩

def qabs (a : Q) : Q := ⟨(a.num.natAbs : Int), a.den, a.dpos⟩

/-- Cross-multiplication strict order. -/
def qlt (a b : Q) : Prop := a.num * b.den < b.num * a.den

/-- Cross-multiplication order. -/
def qle (a b : Q) : Prop := a.num * b.den ≤ b.num * a.den

instance (a b : Q) : Decidable (qlt a b) := by unfold qlt; infer_instance

instance (a b : Q) : Decidable (qle a b) := by unfold qle; infer_instance

lemma qle_refl (a : Q) : qle a a := le_refl _

lemma qle_of_qlt {a b : Q} (h : qlt a b) : qle a b := le_of_lt h

lemma qle_of_not_qlt {a b : Q} (h : ¬ qlt b a) : qle a b := by
  unfold qlt at h
  unfold qle
  omega

lemma qle_trans {a b c : Q} (hab : qle a b) (hbc : qle b c) : qle a c := by
  unfold qle at hab hbc ⊢
  have hb : (0 : Int) < b.den := by exact_mod_cast b.dpos
  have ha : (0 : Int) < a.den := by exact_mod_cast a.dpos
  have hc : (0 : Int) < c.den := by exact_mod_cast c.dpos
  have h1 : a.num * b.den * c.den ≤ b.num * a.den * c.den :=
    mul_le_mul_of_nonneg_right hab (le_of_lt hc)
  have h2 : b.num * c.den * a.den ≤ c.num * b.den * a.den :=
    mul_le_mul_of_nonneg_right hbc (le_of_lt ha)
  have h3 : a.num * c.den * b.den ≤ c.num * a.den * b.den := by nlinarith
  exact le_of_mul_le_mul_right h3 hb

/-- Truncation toward zero, as Python `int()` on an exact rational. -/
def qint (a : Q) : Int :=
  if 0 ≤ a.num then (a.num.natAbs / a.den : Nat) else -((a.num.natAbs / a.den : Nat) : Int)

/-- Python `max(a, b)` on two floats: keeps the first argument on ties. -/
def qmax (a b : Q) : Q := if qlt a b then b else a

/-- An input entity (the dict fields `ScheduleGA` and the fallback
scheduler read: `id`, optional `name`, optional `duration`, optional
`capacity_needed`). -/
structure Entity where
  id : String
  name : Option String
  duration : Option Nat
  capacity_needed : Option Nat
deriving DecidableEq, Repr

/-- One gene of a `creator.Individual`, as built by
`ScheduleGA.create_individual`. -/
structure Gene where
  entity_id : String
  entity_name : String
  day : String
  time : String
  room : String
  duration : Nat
deriving DecidableEq, Repr

/-- Default gene used to give `List.getD` a value; never read on
in-bounds indices. -/
def dGene : Gene :=
  { entity_id := "", entity_name := "", day := "", time := "", room := "", duration := 0 }

/-- An individual is the list of its genes (`creator.Individual` is a
`list` subclass). -/
abbrev Ind := List Gene

/-- A constraint dict: `type` plus the optional parameters the checkers
read (`constraint.get("entity_id")`, `constraint.get("unavailable_slots", [])`,
`constraint.get("preferred_slots", [])`). -/
structure Constraint where
  type : String
  entity_id : Option String
  unavailable_slots : List String
  preferred_slots : List String
deriving DecidableEq, Repr

/-- The resolved configuration of a `ScheduleGA` run: the result of the
`setdefault` calls in `ScheduleGA.__init__` plus the `days` /
`time_slots` / `rooms` / `room_capacities` lookups.  `room_capacities`
is `none` when the config dict has no such key (the code then uses a
built-in default map). -/
structure Config where
  population_size : Nat
  generations : Nat
  crossover_prob : Q
  mutation_prob : Q
  tournament_size : Nat
  elitism_rate : Q
  weight_no_overlap : Q
  weight_room_capacity : Q
  weight_availability : Q
  weight_preferred_time : Q
  weight_balanced_distribution : Q
  weight_consecutive_slots : Q
  weight_gap_penalty : Q
  fitness_method : String
  mutation_strategy : String
  days : List String
  time_slots : List String
  rooms : List String
  room_capacities : Option (List (String × Nat))

/-- The configuration defaults installed by `ScheduleGA.__init__` when
the caller supplies no overriding values. -/
def defaultConfig : Config :=
  { population_size := 100
    generations := 500
    crossover_prob := qmk 7 10
    mutation_prob := qmk 1 10
    tournament_size := 3
    elitism_rate := qmk 1 10
    weight_no_overlap := qofNat 100
    weight_room_capacity := qofNat 80
    weight_availability := qofNat 90
    weight_preferred_time := qofNat 20
    weight_balanced_distribution := qofNat 30
    weight_consecutive_slots := qofNat 15
    weight_gap_penalty := qofNat 10
    fitness_method := "weighted"
    mutation_strategy := "swap"
    days := ["Monday", "Tuesday", "Wednesday", "Thursday", "Friday"]
    time_slots := ["08:00", "09:00", "10:00", "11:00", "12:00", "13:00", "14:00", "15:00", "16:00", "17:00"]
    rooms := ["R101", "R102", "R103", "R104", "R105"]
    room_capacities := none }

/-- `ScheduleGA.check_overlaps`: for each gene, count the later genes
sharing its `(day, time, room)` triple (the nested
`for i, slot1 / for slot2 in individual[i+1:]` loops). -/
def check_overlaps : List Gene → Nat
  | [] => 0
  | g :: rest =>
      rest.countP (fun h => g.day == h.day && g.time == h.time && g.room == h.room) +
        check_overlaps rest

/-- The `(day, time, room)` triple of a gene. -/
def gTriple (g : Gene) : String × String × String := (g.day, g.time, g.room)

lemma check_overlaps_cons (g : Gene) (rest : List Gene) :
    check_overlaps (g :: rest) =
      rest.countP (fun h => g.day == h.day && g.time == h.time && g.room == h.room) +
        check_overlaps rest := rfl

lemma countP_triple_of_const {t : String × String × String} (g : Gene) (l : List Gene)
    (hg : gTriple g = t) (hl : ∀ h ∈ l, gTriple h = t) :
    l.countP (fun h => g.day == h.day && g.time == h.time && g.room == h.room) = l.length := by
  induction l with
  | nil => simp
  | cons x xs ih =>
      have hx : gTriple x = t := hl x (by simp)
      have hxs : ∀ h ∈ xs, gTriple h = t := fun h hh => hl h (by simp [hh])
      have h2 : gTriple g = gTriple x := hg.trans hx.symm
      simp only [gTriple, Prod.mk.injEq] at h2
      have hcond : (g.day == x.day && g.time == x.time && g.room == x.room) = true := by
        simp [h2.1, h2.2.1, h2.2.2]
      rw [List.countP_cons, ih hxs, hcond]
      simp

/-- The index-pair reading of the overlap count: position `i` contributes
one unit for every later position holding the same `(day, time, room)`
triple. -/
lemma check_overlaps_eq_sum (l : List Gene) :
    check_overlaps l =
      ∑ i ∈ Finset.range l.length,
        (l.drop (i + 1)).countP
          (fun h => (l.getD i dGene).day == h.day && (l.getD i dGene).time == h.time &&
            (l.getD i dGene).room == h.room) := by
  induction l with
  | nil => simp [check_overlaps]
  | cons g rest ih =>
      rw [check_overlaps_cons, ih]
      rw [List.length_cons, Finset.sum_range_succ']
      simp only [List.getD, List.drop_succ_cons, List.getElem?_cons_succ, List.getElem?_cons_zero,
        List.drop_zero, Option.getD_some]
      exact Nat.add_comm _ _

lemma check_overlaps_const (l : List Gene) (t : String × String × String)
    (h : ∀ g ∈ l, gTriple g = t) : check_overlaps l = l.length.choose 2 := by
  induction l with
  | nil => simp [check_overlaps]
  | cons g rest ih =>
      rw [check_overlaps_cons,
        countP_triple_of_const g rest (h g (by simp)) (fun x hx => h x (by simp [hx])),
        ih (fun x hx => h x (by simp [hx])), List.length_cons,
        Nat.choose_succ_succ rest.length 1, Nat.choose_one_right]

/-- C4: `check_overlaps` counts the unordered pairs of genes sharing one
`(day, time, room)` triple — position `i` contributes one unit for every
later position with an equal triple — and on `k` genes that all share a
single triple it reports exactly `C(k, 2)` violations. -/
theorem check_overlaps_counts_pairs :
    (∀ l : List Gene,
      check_overlaps l =
        ∑ i ∈ Finset.range l.length,
          (l.drop (i + 1)).countP
            (fun h => (l.getD i dGene).day == h.day && (l.getD i dGene).time == h.time &&
              (l.getD i dGene).room == h.room)) ∧
    (∀ (l : List Gene) (t : String × String × String),
      (∀ g ∈ l, gTriple g = t) → check_overlaps l = l.length.choose 2) :=
  ⟨check_overlaps_eq_sum, check_overlaps_const⟩

/-- Witness for C4 at `k = 3`: three genes sharing one triple give `C(3,2) = 3`. -/
theorem check_overlaps_counts_pairs_witness :
    check_overlaps
      [{ entity_id := "e1", entity_name := "E1", day := "Mon", time := "9", room := "R1", duration := 1 },
       { entity_id := "e2", entity_name := "E2", day := "Mon", time := "9", room := "R1", duration := 1 },
       { entity_id := "e3", entity_name := "E3", day := "Mon", time := "9", room := "R1", duration := 1 }] = 3 := by
  have h := check_overlaps_counts_pairs.2
    [{ entity_id := "e1", entity_name := "E1", day := "Mon", time := "9", room := "R1", duration := 1 },
     { entity_id := "e2", entity_name := "E2", day := "Mon", time := "9", room := "R1", duration := 1 },
     { entity_id := "e3", entity_name := "E3", day := "Mon", time := "9", room := "R1", duration := 1 }]
    ("Mon", "9", "R1") (by decide)
  simpa using h

/-- `ScheduleGA.get_room_capacity`: look the room up in the configured
`room_capacities` dict, falling back to a built-in default map when the
config has no such key; rooms absent from the map in use get capacity 30. -/
def get_room_capacity (cfg : Config) (room : String) : Nat :=
  let caps := cfg.room_capacities.getD
    [("R101", 30), ("R102", 50), ("R103", 100), ("R104", 40), ("R105", 60)]
  (List.lookup room caps).getD 30

/-- `ScheduleGA.check_room_capacity`: count genes whose owning entity
(first entity with matching id, if any) needs more capacity than the
assigned room provides. -/
def check_room_capacity (cfg : Config) (ents : List Entity) (ind : List Gene) : Nat :=
  ind.countP (fun slot =>
    match ents.find? (fun e => e.id == slot.entity_id) with
    | some e => decide (get_room_capacity cfg slot.room < e.capacity_needed.getD 0)
    | none => false)

/-- `ScheduleGA.check_availability`: count the target entity's genes
landing on a listed unavailable `day_time` key. -/
def check_availability (c : Constraint) (ind : List Gene) : Nat :=
  ind.countP (fun slot =>
    c.entity_id == some slot.entity_id &&
      c.unavailable_slots.contains (slot.day ++ "_" ++ slot.time))

/-- `ScheduleGA.check_preferred_times`: count the target entity's genes
landing on a listed preferred `day_time` key. -/
def check_preferred_times (c : Constraint) (ind : List Gene) : Nat :=
  ind.countP (fun slot =>
    c.entity_id == some slot.entity_id &&
      c.preferred_slots.contains (slot.day ++ "_" ++ slot.time))

/-- Stable insertion used to model Python's stable `sorted(..., key=...)`
(ascending): a later element with an equal key stays after earlier ones. -/
def insertAscBy (key : Gene → Nat) (x : Gene) : List Gene → List Gene
  | [] => [x]
  | y :: ys => if key x < key y then x :: y :: ys else y :: insertAscBy key x ys

/-- Stable ascending sort by key (models Python `sorted(..., key=...)`). -/
def sortAscBy (key : Gene → Nat) (l : List Gene) : List Gene :=
  l.foldl (fun acc x => insertAscBy key x acc) []

/-- Adjacent-pair bonus of `check_consecutive_preference`: one unit per
consecutive pair of time-slot indices differing by exactly one. -/
def countAdj : List Nat → Nat
  | a :: b :: rest => (if b = a + 1 then 1 else 0) + countAdj (b :: rest)
  | _ => 0

/-- Gap total of `check_gaps` for one day: `index_gap - 1` for each
consecutive pair, counted only when positive (the list is sorted
ascending, so truncated `Nat` subtraction matches the Python `int` test
`if gap > 0`). -/
def countGaps : List Nat → Nat
  | a :: b :: rest => (b - a - 1) + countGaps (b :: rest)
  | _ => 0

/-- `ScheduleGA.check_consecutive_preference`: for the constraint's
target entity, per day, sort its genes by time-slot index (Python
`list.index`; genes hold times drawn from `time_slots`, so the
missing-value branch of `List.indexOf` is not reached in runs) and count
adjacent index pairs differing by one. -/
def check_consecutive_preference (cfg : Config) (c : Constraint) (ind : List Gene) : Nat :=
  let entity_slots := ind.filter (fun s => c.entity_id == some s.entity_id)
  (cfg.days.map (fun day =>
    let day_slots := sortAscBy (fun x => cfg.time_slots.indexOf x.time)
      (entity_slots.filter (fun s => s.day == day))
    countAdj (day_slots.map (fun x => cfg.time_slots.indexOf x.time)))).sum

/-- `ScheduleGA.check_gaps`: per day, sort all genes by time-slot index
and total the positive gaps between consecutive genes. -/
def check_gaps (cfg : Config) (ind : List Gene) : Nat :=
  (cfg.days.map (fun day =>
    let day_slots := sortAscBy (fun x => cfg.time_slots.indexOf x.time)
      (ind.filter (fun s => s.day == day))
    countGaps (day_slots.map (fun x => cfg.time_slots.indexOf x.time)))).sum

/-- `np.var` over a list of counts, in exact rational arithmetic
(population variance; `np.var([])` is NaN in Python but that branch is
reached only with an empty `days` list, which no run with created
individuals has). -/
def qvar (l : List Nat) : Q :=
  if l.length = 0 then qofNat 0
  else
    let n := qofNat l.length
    let mean := qdiv (qofNat l.sum) n
    qdiv
      (l.foldl (fun acc x => qadd acc (qmul (qsub (qofNat x) mean) (qsub (qofNat x) mean)))
        (qofNat 0)) n

/-- `ScheduleGA.check_balance`: per-day gene counts (dict keyed by the
distinct configured days; genes hold days drawn from `days`), scored as
`100 / (1 + variance)`. -/
def check_balance (cfg : Config) (ind : List Gene) : Q :=
  let counts := (cfg.days.eraseDups).map (fun d => ind.countP (fun s => s.day == d))
  qdiv (qofNat 100) (qadd (qofNat 1) (qvar counts))

/-- One pass of the hard-constraint loop of `ScheduleGA.evaluate_fitness`. -/
def hardPass (cfg : Config) (ents : List Entity) (ind : List Gene) (score : Q)
    (c : Constraint) : Q :=
  if c.type == "no_overlap" then
    qsub score (qmul (qofNat (check_overlaps ind)) cfg.weight_no_overlap)
  else if c.type == "room_capacity" then
    qsub score (qmul (qofNat (check_room_capacity cfg ents ind)) cfg.weight_room_capacity)
  else if c.type == "availability" then
    qsub score (qmul (qofNat (check_availability c ind)) cfg.weight_availability)
  else score

/-- One pass of the soft-constraint loop of `ScheduleGA.evaluate_fitness`. -/
def softPass (cfg : Config) (ind : List Gene) (score : Q) (c : Constraint) : Q :=
  if c.type == "preferred_time" then
    qadd score (qmul (qofNat (check_preferred_times c ind)) cfg.weight_preferred_time)
  else if c.type == "balanced_distribution" then
    qadd score (qmul (check_balance cfg ind) cfg.weight_balanced_distribution)
  else if c.type == "consecutive_slots" then
    qadd score (qmul (qofNat (check_consecutive_preference cfg c ind)) cfg.weight_consecutive_slots)
  else if c.type == "minimize_gaps" then
    qsub score (qmul (qofNat (check_gaps cfg ind)) cfg.weight_gap_penalty)
  else score

/-- `ScheduleGA.evaluate_fitness`: baseline 1000, the hard loop, the soft
loop, the optional `penalty_based` transform, and the final clamp
`max(score, 0)`. -/
def evaluate_fitness (cfg : Config) (ents : List Entity) (cons : List Constraint)
    (ind : List Gene) : Q :=
  let score := qofNat 1000
  let score := cons.foldl (hardPass cfg ents ind) score
  let score := cons.foldl (softPass cfg ind) score
  let score :=
    if cfg.fitness_method == "penalty_based" then
      if qlt score (qofNat 0) then qdiv (qofNat 1000) (qadd (qofNat 1) (qabs score)) else score
    else score
  qmax score (qofNat 0)

/-- `ScheduleGA.create_individual` body: one gene per entity in input
order; `pick k` supplies the three `random.choice` draws for entity `k`. -/
def createGenes (cfg : Config) (pick : Nat → Nat × Nat × Nat) :
    List Entity → Nat → Except PyErr (List Gene)
  | [], _ => .ok []
  | e :: rest, k => do
      let d ← pyChoice cfg.days (pick k).1
      let t ← pyChoice cfg.time_slots (pick k).2.1
      let r ← pyChoice cfg.rooms (pick k).2.2
      let gs ← createGenes cfg pick rest (k + 1)
      .ok ({ entity_id := e.id, entity_name := e.name.getD e.id, day := d, time := t,
             room := r, duration := e.duration.getD 2 } :: gs)

/-- `ScheduleGA.create_individual`. -/
def create_individual (ents : List Entity) (cfg : Config)
    (pick : Nat → Nat × Nat × Nat) : Except PyErr (List Gene) :=
  createGenes cfg pick ents 0

/-- The per-call random draws consumed by one `ScheduleGA.mutate_schedule`
call: `r` models `random.random()`, the naturals model the index and
choice draws of whichever strategy fires. -/
structure MutDraw where
  r : Q
  i : Nat
  j : Nat
  fieldR : Nat
  dayR : Nat
  timeR : Nat
  roomR : Nat

/-- `ScheduleGA.mutate_schedule`: with probability `mutation_prob` apply
the configured strategy.  `swap` exchanges the two sampled gene records
wholesale; `shift` redraws one of day/time/room on one gene; `random`
redraws all three; any other strategy name changes nothing. -/
def mutate_schedule (cfg : Config) (dr : MutDraw) (ind : Ind) : Except PyErr Ind :=
  if qlt dr.r cfg.mutation_prob then
    if cfg.mutation_strategy == "swap" then
      if 2 ≤ ind.length then do
        let ij ← pySample2 ind.length dr.i dr.j
        .ok ((ind.set ij.1 (ind.getD ij.2 dGene)).set ij.2 (ind.getD ij.1 dGene))
      else .ok ind
    else if cfg.mutation_strategy == "shift" then do
      let idx ← pyRandint0 ind.length dr.i
      let fld ← pyChoice ["day", "time", "room"] dr.fieldR
      if fld == "day" then do
        let v ← pyChoice cfg.days dr.dayR
        .ok (ind.set idx { ind.getD idx dGene with day := v })
      else if fld == "time" then do
        let v ← pyChoice cfg.time_slots dr.timeR
        .ok (ind.set idx { ind.getD idx dGene with time := v })
      else do
        let v ← pyChoice cfg.rooms dr.roomR
        .ok (ind.set idx { ind.getD idx dGene with room := v })
    else if cfg.mutation_strategy == "random" then do
      let idx ← pyRandint0 ind.length dr.i
      let d ← pyChoice cfg.days dr.dayR
      let t ← pyChoice cfg.time_slots dr.timeR
      let r ← pyChoice cfg.rooms dr.roomR
      .ok (ind.set idx { ind.getD idx dGene with day := d, time := t, room := r })
    else .ok ind
  else .ok ind

lemma pyChoice_ok (l : List String) (r : Nat) (h : l ≠ []) :
    pyChoice l r = .ok (l.getD (r % l.length) "") := by
  have hlen : 0 < l.length := List.length_pos.mpr h
  have hb : r % l.length < l.length := Nat.mod_lt _ hlen
  unfold pyChoice
  rw [List.getElem?_eq_getElem hb, List.getD_eq_getElem l "" hb]

/-- The gene list `create_individual` builds, written in closed form:
one gene per entity in input order, resource fields given by the
`random.choice` draws, `duration` defaulted to 2. -/
def createdSpec (cfg : Config) (pick : Nat → Nat × Nat × Nat) :
    List Entity → Nat → List Gene
  | [], _ => []
  | e :: rest, k =>
      { entity_id := e.id, entity_name := e.name.getD e.id,
        day := cfg.days.getD ((pick k).1 % cfg.days.length) "",
        time := cfg.time_slots.getD ((pick k).2.1 % cfg.time_slots.length) "",
        room := cfg.rooms.getD ((pick k).2.2 % cfg.rooms.length) "",
        duration := e.duration.getD 2 } :: createdSpec cfg pick rest (k + 1)

lemma createdSpec_length (cfg : Config) (pick : Nat → Nat × Nat × Nat)
    (ents : List Entity) (k : Nat) : (createdSpec cfg pick ents k).length = ents.length := by
  induction ents generalizing k with
  | nil => rfl
  | cons e rest ih => simp [createdSpec, ih]

lemma createGenes_eq_spec (cfg : Config) (pick : Nat → Nat × Nat × Nat)
    (hd : cfg.days ≠ []) (ht : cfg.time_slots ≠ []) (hr : cfg.rooms ≠ [])
    (ents : List Entity) (k : Nat) :
    createGenes cfg pick ents k = .ok (createdSpec cfg pick ents k) := by
  induction ents generalizing k with
  | nil => rfl
  | cons e rest ih =>
      simp only [createGenes, createdSpec, pyChoice_ok _ _ hd, pyChoice_ok _ _ ht,
        pyChoice_ok _ _ hr, ih]
      rfl

/-- C8 counterexample: on an entity with no `duration` key,
`create_individual` writes `duration = 2`, not the claimed default 1. -/
theorem create_individual_duration_not_one :
    create_individual [{ id := "e1", name := none, duration := none, capacity_needed := none }]
        defaultConfig (fun _ => (0, 0, 0)) =
      .ok [{ entity_id := "e1", entity_name := "e1", day := "Monday", time := "08:00",
             room := "R101", duration := 2 }] ∧ (2 : Nat) ≠ 1 := by
  constructor
  · rfl
  · decide

/-- C8 (amended): `create_individual` builds one gene per entity in
input order; each gene copies `entity_id`, defaults `entity_name` to the
id, takes `day` / `time` / `room` from the `random.choice` draws over the
configured resource lists, and copies `duration` from the entity with a
default of 2 when absent. -/
theorem create_individual_structure (ents : List Entity) (cfg : Config)
    (pick : Nat → Nat × Nat × Nat)
    (hd : cfg.days ≠ []) (ht : cfg.time_slots ≠ []) (hr : cfg.rooms ≠ []) :
    create_individual ents cfg pick = .ok (createdSpec cfg pick ents 0) ∧
      (createdSpec cfg pick ents 0).length = ents.length :=
  ⟨createGenes_eq_spec cfg pick hd ht hr ents 0, createdSpec_length cfg pick ents 0⟩

/-- Witness for C8 (amended) on a concrete entity and the default config. -/
theorem create_individual_structure_witness :
    create_individual [{ id := "e9", name := some "Lab", duration := some 3, capacity_needed := none }]
        defaultConfig (fun _ => (1, 2, 3)) =
      .ok (createdSpec defaultConfig (fun _ => (1, 2, 3))
        [{ id := "e9", name := some "Lab", duration := some 3, capacity_needed := none }] 0) :=
  (create_individual_structure
    [{ id := "e9", name := some "Lab", duration := some 3, capacity_needed := none }]
    defaultConfig (fun _ => (1, 2, 3)) (by decide) (by decide) (by decide)).1

/-- C9 counterexample: with no `room_capacities` configured at all, the
built-in default map applies, so room R103 gets capacity 100, not the
claimed 30. -/
theorem room_capacity_default_map_not_thirty :
    get_room_capacity defaultConfig "R103" = 100 ∧ (100 : Nat) ≠ 30 := by
  constructor
  · rfl
  · decide

/-- C9 (amended): when a `room_capacities` map is configured the
capacity is its value for the room, with 30 for rooms absent from it;
when no map is configured at all, the lookup falls back to the built-in
default map `R101 ↦ 30, R102 ↦ 50, R103 ↦ 100, R104 ↦ 40, R105 ↦ 60`
(again 30 for rooms absent from that map). -/
theorem get_room_capacity_lookup (cfg : Config) (room : String) :
    (∀ m, cfg.room_capacities = some m →
      get_room_capacity cfg room = (List.lookup room m).getD 30) ∧
    (cfg.room_capacities = none →
      get_room_capacity cfg room =
        (List.lookup room
          [("R101", 30), ("R102", 50), ("R103", 100), ("R104", 40), ("R105", 60)]).getD 30) := by
  constructor
  · intro m hm
    simp [get_room_capacity, hm]
  · intro hm
    simp [get_room_capacity, hm]

/-- Witness for C9 (amended): a configured map overrides the built-in one. -/
theorem get_room_capacity_lookup_witness :
    get_room_capacity
        { defaultConfig with room_capacities := some [("R101", 7)] } "R101" =
      (List.lookup "R101" [("R101", 7)]).getD 30 :=
  (get_room_capacity_lookup
    { defaultConfig with room_capacities := some [("R101", 7)] } "R101").1 [("R101", 7)] rfl

/-- C2 counterexample: with the `swap` strategy firing on positions 0 and
1, the whole gene records are exchanged, so the `entity_id` stored at
position 0 changes from "e1" to "e2". -/
theorem mutate_swap_changes_entity_id :
    mutate_schedule defaultConfig
        { r := qofNat 0, i := 0, j := 0, fieldR := 0, dayR := 0, timeR := 0, roomR := 0 }
        [{ entity_id := "e1", entity_name := "E1", day := "Mon", time := "9", room := "R1", duration := 1 },
         { entity_id := "e2", entity_name := "E2", day := "Tue", time := "10", room := "R2", duration := 2 }] =
      .ok
        [{ entity_id := "e2", entity_name := "E2", day := "Tue", time := "10", room := "R2", duration := 2 },
         { entity_id := "e1", entity_name := "E1", day := "Mon", time := "9", room := "R1", duration := 1 }] ∧
    ("e2" : String) ≠ "e1" := by
  constructor
  · decide
  · decide

/-- C2 (amended): when the `swap` strategy fires, the two sampled
positions exchange their entire gene records — all five fields,
`entity_id` included — and every other position is unchanged. -/
theorem mutate_swap_exchanges_whole_genes (cfg : Config) (dr : MutDraw) (ind : Ind)
    (i j : Nat)
    (hs : cfg.mutation_strategy = "swap") (hr : qlt dr.r cfg.mutation_prob)
    (hn : 2 ≤ ind.length)
    (hij : pySample2 ind.length dr.i dr.j = .ok (i, j)) :
    mutate_schedule cfg dr ind =
        .ok ((ind.set i (ind.getD j dGene)).set j (ind.getD i dGene)) ∧
      ((ind.set i (ind.getD j dGene)).set j (ind.getD i dGene))[j]? =
        some (ind.getD i dGene) ∧
      ((ind.set i (ind.getD j dGene)).set j (ind.getD i dGene))[i]? =
        some (ind.getD j dGene) ∧
      ∀ p, p ≠ i → p ≠ j →
        ((ind.set i (ind.getD j dGene)).set j (ind.getD i dGene))[p]? = ind[p]? := by
  have hpos : 0 < ind.length := by omega
  have hkey : dr.i % ind.length = i ∧
      (if dr.i % ind.length ≤ dr.j % (ind.length - 1) then dr.j % (ind.length - 1) + 1
        else dr.j % (ind.length - 1)) = j := by
    simp only [pySample2, if_pos hn, Except.ok.injEq, Prod.mk.injEq] at hij
    exact hij
  have hj0 : dr.j % (ind.length - 1) < ind.length - 1 := Nat.mod_lt _ (by omega)
  have hilt : i < ind.length := by
    rw [← hkey.1]
    exact Nat.mod_lt _ hpos
  have hjlt : j < ind.length := by
    rw [← hkey.2]
    split <;> omega
  have hne : i ≠ j := by
    rw [← hkey.1, ← hkey.2]
    split <;> omega
  refine ⟨?_, ?_, ?_, ?_⟩
  · simp only [mutate_schedule, hs, beq_self_eq_true, if_true, if_pos hr, if_pos hn, hij]
    rfl
  · have hjset : j < (ind.set i (ind.getD j dGene)).length := by
      rw [List.length_set]; exact hjlt
    exact List.getElem?_set_self hjset
  · rw [List.getElem?_set_ne hne.symm, List.getElem?_set_self hilt]
  · intro p hpi hpj
    rw [List.getElem?_set_ne (fun h => hpj h.symm), List.getElem?_set_ne (fun h => hpi h.symm)]

/-- One row of the fallback schedule built by
`GeminiScheduler._generate_fallback_schedule` (dict keys `entity_id`,
`day`, `time`, `room`, `duration`; note the `duration` default here is 1). -/
structure SlotRow where
  entity_id : String
  day : String
  time : String
  room : String
  duration : Nat
deriving DecidableEq, Repr

/-- The loop of `GeminiScheduler._generate_fallback_schedule`: one row per
entity in input order, driven by the three cyclic counters with `room`
fastest-changing; `days[day_idx % len(days)]` (and the two analogues)
raises on an empty resource list. -/
def fallbackAux (cfg : Config) :
    List Entity → Nat → Nat → Nat → Except PyErr (List SlotRow)
  | [], _, _, _ => .ok []
  | e :: rest, dayIdx, timeIdx, roomIdx => do
      let d ← pyChoice cfg.days dayIdx
      let t ← pyChoice cfg.time_slots timeIdx
      let r ← pyChoice cfg.rooms roomIdx
      let next ←
        if cfg.rooms.length ≤ roomIdx + 1 then
          if cfg.time_slots.length ≤ timeIdx + 1 then
            fallbackAux cfg rest (dayIdx + 1) 0 0
          else fallbackAux cfg rest dayIdx (timeIdx + 1) 0
        else
          if cfg.time_slots.length ≤ timeIdx then
            fallbackAux cfg rest (dayIdx + 1) 0 (roomIdx + 1)
          else fallbackAux cfg rest dayIdx timeIdx (roomIdx + 1)
      .ok ({ entity_id := e.id, day := d, time := t, room := r,
             duration := e.duration.getD 1 } :: next)

/-- `GeminiScheduler._generate_fallback_schedule`: counters start at 0. -/
def generate_fallback_schedule (ents : List Entity) (cfg : Config) :
    Except PyErr (List SlotRow) :=
  fallbackAux cfg ents 0 0 0

/-- Closed form of the `(day, time, room)` triple the fallback scheduler
assigns to entity index `n`: the mixed-radix digits of `n` with `room`
as the least significant position. -/
def fbTriple (cfg : Config) (n : Nat) : String × String × String :=
  (cfg.days.getD ((n / cfg.rooms.length / cfg.time_slots.length) % cfg.days.length) "",
   cfg.time_slots.getD ((n / cfg.rooms.length) % cfg.time_slots.length) "",
   cfg.rooms.getD (n % cfg.rooms.length) "")

/-- Closed form of the whole fallback schedule from entity index `k` on. -/
def fbSpec (cfg : Config) : List Entity → Nat → List SlotRow
  | [], _ => []
  | e :: rest, k =>
      { entity_id := e.id, day := (fbTriple cfg k).1, time := (fbTriple cfg k).2.1,
        room := (fbTriple cfg k).2.2, duration := e.duration.getD 1 } :: fbSpec cfg rest (k + 1)

lemma ok_bind {α β : Type} (a : α) (f : α → Except PyErr β) :
    (Except.ok a : Except PyErr α) >>= f = f a := rfl

lemma succ_mod_div_lt {R k : Nat} (hR : 0 < R) (h : k % R + 1 < R) :
    (k + 1) % R = k % R + 1 ∧ (k + 1) / R = k / R := by
  have h0 := Nat.div_add_mod k R
  rw [Nat.mul_comm] at h0
  have hs : k + 1 = (k % R + 1) + (k / R) * R := by omega
  constructor
  · rw [hs, Nat.add_mul_mod_self_right, Nat.mod_eq_of_lt h]
  · rw [hs, Nat.add_mul_div_right _ _ hR, Nat.div_eq_of_lt h, Nat.zero_add]

lemma succ_mod_div_eq {R k : Nat} (hR : 0 < R) (h : k % R + 1 = R) :
    (k + 1) % R = 0 ∧ (k + 1) / R = k / R + 1 := by
  have h0 := Nat.div_add_mod k R
  rw [Nat.mul_comm] at h0
  have hexp : (k / R + 1) * R = k / R * R + R := by
    rw [Nat.add_mul, Nat.one_mul]
  have hs : k + 1 = 0 + (k / R + 1) * R := by omega
  constructor
  · rw [hs, Nat.add_mul_mod_self_right, Nat.zero_mod]
  · rw [hs, Nat.add_mul_div_right _ _ hR, Nat.zero_div, Nat.zero_add]

lemma fallbackAux_eq_spec (cfg : Config)
    (hD : cfg.days ≠ []) (hT : cfg.time_slots ≠ []) (hR : cfg.rooms ≠ [])
    (ents : List Entity) :
    ∀ k : Nat,
      fallbackAux cfg ents (k / cfg.rooms.length / cfg.time_slots.length)
        ((k / cfg.rooms.length) % cfg.time_slots.length) (k % cfg.rooms.length) =
      .ok (fbSpec cfg ents k) := by
  have hRp : 0 < cfg.rooms.length := List.length_pos.mpr hR
  have hTp : 0 < cfg.time_slots.length := List.length_pos.mpr hT
  induction ents with
  | nil => intro k; rfl
  | cons e rest ih =>
      intro k
      have hmodR : k % cfg.rooms.length < cfg.rooms.length := Nat.mod_lt _ hRp
      have hmodT : (k / cfg.rooms.length) % cfg.time_slots.length < cfg.time_slots.length :=
        Nat.mod_lt _ hTp
      simp only [fallbackAux, pyChoice_ok _ _ hD, pyChoice_ok _ _ hT, pyChoice_ok _ _ hR,
        ok_bind, Nat.mod_mod_of_dvd _ dvd_rfl]
      by_cases hw : cfg.rooms.length ≤ k % cfg.rooms.length + 1
      · have hweq : k % cfg.rooms.length + 1 = cfg.rooms.length := by omega
        obtain ⟨hm1, hd1⟩ := succ_mod_div_eq hRp hweq
        by_cases hw2 : cfg.time_slots.length ≤ (k / cfg.rooms.length) % cfg.time_slots.length + 1
        · have hweq2 : (k / cfg.rooms.length) % cfg.time_slots.length + 1 =
              cfg.time_slots.length := by omega
          obtain ⟨hm2, hd2⟩ := succ_mod_div_eq hTp hweq2
          rw [if_pos hw, if_pos hw2]
          have hrec := ih (k + 1)
          rw [hd1, hm1, hd2, hm2] at hrec
          rw [hrec, ok_bind]
          rfl
        · have hlt2 : (k / cfg.rooms.length) % cfg.time_slots.length + 1 <
              cfg.time_slots.length := by omega
          obtain ⟨hm2, hd2⟩ := succ_mod_div_lt hTp hlt2
          rw [if_pos hw, if_neg hw2]
          have hrec := ih (k + 1)
          rw [hd1, hm1, hd2, hm2] at hrec
          rw [hrec, ok_bind]
          rfl
      · have hlt1 : k % cfg.rooms.length + 1 < cfg.rooms.length := by omega
        obtain ⟨hm1, hd1⟩ := succ_mod_div_lt hRp hlt1
        rw [if_neg hw, if_neg (by omega : ¬ cfg.time_slots.length ≤
          (k / cfg.rooms.length) % cfg.time_slots.length)]
        have hrec := ih (k + 1)
        rw [hd1, hm1] at hrec
        rw [hrec, ok_bind]
        rfl

lemma fbSpec_length (cfg : Config) (ents : List Entity) (k : Nat) :
    (fbSpec cfg ents k).length = ents.length := by
  induction ents generalizing k with
  | nil => rfl
  | cons e rest ih => simp [fbSpec, ih]

lemma fbSpec_get (cfg : Config) (ents : List Entity) :
    ∀ (k n : Nat) (e : Entity), ents[n]? = some e →
      (fbSpec cfg ents k)[n]? =
        some { entity_id := e.id, day := (fbTriple cfg (k + n)).1,
               time := (fbTriple cfg (k + n)).2.1, room := (fbTriple cfg (k + n)).2.2,
               duration := e.duration.getD 1 } := by
  induction ents with
  | nil => intro k n e h; simp at h
  | cons x rest ih =>
      intro k n e h
      match n with
      | 0 =>
          simp only [List.getElem?_cons_zero, Option.some.injEq] at h
          subst h
          simp [fbSpec]
      | n + 1 =>
          simp only [List.getElem?_cons_succ] at h
          have := ih (k + 1) n e h
          simpa [fbSpec, Nat.add_assoc, Nat.add_comm 1 n] using this

lemma fbTriple_inj (cfg : Config)
    (ndD : cfg.days.Nodup) (ndT : cfg.time_slots.Nodup) (ndR : cfg.rooms.Nodup)
    (hDp : 0 < cfg.days.length) (hTp : 0 < cfg.time_slots.length)
    (hRp : 0 < cfg.rooms.length)
    {m n : Nat}
    (hm : m < cfg.days.length * cfg.time_slots.length * cfg.rooms.length)
    (hn : n < cfg.days.length * cfg.time_slots.length * cfg.rooms.length)
    (h : fbTriple cfg m = fbTriple cfg n) : m = n := by
  simp only [fbTriple, Prod.mk.injEq] at h
  obtain ⟨hday, htime, hroom⟩ := h
  have hm1 : m / cfg.rooms.length < cfg.days.length * cfg.time_slots.length :=
    (Nat.div_lt_iff_lt_mul hRp).mpr hm
  have hn1 : n / cfg.rooms.length < cfg.days.length * cfg.time_slots.length :=
    (Nat.div_lt_iff_lt_mul hRp).mpr hn
  have hm2 : m / cfg.rooms.length / cfg.time_slots.length < cfg.days.length :=
    (Nat.div_lt_iff_lt_mul hTp).mpr hm1
  have hn2 : n / cfg.rooms.length / cfg.time_slots.length < cfg.days.length :=
    (Nat.div_lt_iff_lt_mul hTp).mpr hn1
  rw [Nat.mod_eq_of_lt hm2, Nat.mod_eq_of_lt hn2,
    List.getD_eq_getElem _ "" hm2, List.getD_eq_getElem _ "" hn2] at hday
  have hdeq : m / cfg.rooms.length / cfg.time_slots.length =
      n / cfg.rooms.length / cfg.time_slots.length :=
    (List.Nodup.getElem_inj_iff ndD).mp hday
  have hmT : (m / cfg.rooms.length) % cfg.time_slots.length < cfg.time_slots.length :=
    Nat.mod_lt _ hTp
  have hnT : (n / cfg.rooms.length) % cfg.time_slots.length < cfg.time_slots.length :=
    Nat.mod_lt _ hTp
  rw [List.getD_eq_getElem _ "" hmT, List.getD_eq_getElem _ "" hnT] at htime
  have hteq : (m / cfg.rooms.length) % cfg.time_slots.length =
      (n / cfg.rooms.length) % cfg.time_slots.length :=
    (List.Nodup.getElem_inj_iff ndT).mp htime
  have hmR : m % cfg.rooms.length < cfg.rooms.length := Nat.mod_lt _ hRp
  have hnR : n % cfg.rooms.length < cfg.rooms.length := Nat.mod_lt _ hRp
  rw [List.getD_eq_getElem _ "" hmR, List.getD_eq_getElem _ "" hnR] at hroom
  have hreq : m % cfg.rooms.length = n % cfg.rooms.length :=
    (List.Nodup.getElem_inj_iff ndR).mp hroom
  have e1m := Nat.div_add_mod (m / cfg.rooms.length) cfg.time_slots.length
  have e1n := Nat.div_add_mod (n / cfg.rooms.length) cfg.time_slots.length
  rw [hdeq, hteq] at e1m
  have hdivEq : m / cfg.rooms.length = n / cfg.rooms.length := by omega
  have e0m := Nat.div_add_mod m cfg.rooms.length
  have e0n := Nat.div_add_mod n cfg.rooms.length
  rw [hdivEq, hreq] at e0m
  omega

lemma fbTriple_period (cfg : Config)
    (hTp : 0 < cfg.time_slots.length) (hRp : 0 < cfg.rooms.length) (k : Nat) :
    fbTriple cfg (k + cfg.days.length * cfg.time_slots.length * cfg.rooms.length) =
      fbTriple cfg k := by
  have hdivR : (k + cfg.days.length * cfg.time_slots.length * cfg.rooms.length) /
      cfg.rooms.length = k / cfg.rooms.length + cfg.days.length * cfg.time_slots.length :=
    Nat.add_mul_div_right _ _ hRp
  have hmodR : (k + cfg.days.length * cfg.time_slots.length * cfg.rooms.length) %
      cfg.rooms.length = k % cfg.rooms.length :=
    Nat.add_mul_mod_self_right _ _ _
  have hdivT : (k / cfg.rooms.length + cfg.days.length * cfg.time_slots.length) /
      cfg.time_slots.length = k / cfg.rooms.length / cfg.time_slots.length + cfg.days.length :=
    Nat.add_mul_div_right _ _ hTp
  have hmodT : (k / cfg.rooms.length + cfg.days.length * cfg.time_slots.length) %
      cfg.time_slots.length = (k / cfg.rooms.length) % cfg.time_slots.length :=
    Nat.add_mul_mod_self_right _ _ _
  simp only [fbTriple, hdivR, hmodR, hdivT, hmodT, Nat.add_mod_right]

/-- C5: the round-robin fallback scheduler emits one row per entity in
input order with the mixed-radix `(day, time, room)` triple (`room`
fastest-changing); the first `min(entity_count, D*T*R)` rows carry
pairwise-distinct triples, and the triple sequence is periodic with
period `D*T*R`, so index `D*T*R` reuses index 0's triple, and in general
index `k + D*T*R` reuses index `k`'s. -/
theorem fallback_round_robin (ents : List Entity) (cfg : Config)
    (hD : cfg.days ≠ []) (hT : cfg.time_slots ≠ []) (hR : cfg.rooms ≠ [])
    (ndD : cfg.days.Nodup) (ndT : cfg.time_slots.Nodup) (ndR : cfg.rooms.Nodup) :
    generate_fallback_schedule ents cfg = .ok (fbSpec cfg ents 0) ∧
    (fbSpec cfg ents 0).length = ents.length ∧
    (∀ (n : Nat) (e : Entity), ents[n]? = some e →
      (fbSpec cfg ents 0)[n]? =
        some { entity_id := e.id, day := (fbTriple cfg n).1, time := (fbTriple cfg n).2.1,
               room := (fbTriple cfg n).2.2, duration := e.duration.getD 1 }) ∧
    (∀ m n : Nat, m < n →
      n < min ents.length (cfg.days.length * cfg.time_slots.length * cfg.rooms.length) →
      fbTriple cfg m ≠ fbTriple cfg n) ∧
    (∀ k : Nat,
      fbTriple cfg (k + cfg.days.length * cfg.time_slots.length * cfg.rooms.length) =
        fbTriple cfg k) := by
  have hDp : 0 < cfg.days.length := List.length_pos.mpr hD
  have hTp : 0 < cfg.time_slots.length := List.length_pos.mpr hT
  have hRp : 0 < cfg.rooms.length := List.length_pos.mpr hR
  refine ⟨?_, fbSpec_length cfg ents 0, ?_, ?_, fbTriple_period cfg hTp hRp⟩
  · have h := fallbackAux_eq_spec cfg hD hT hR ents 0
    simpa [generate_fallback_schedule] using h
  · intro n e he
    simpa using fbSpec_get cfg ents 0 n e he
  · intro m n hmn hn hcontra
    have heq := fbTriple_inj cfg ndD ndT ndR hDp hTp hRp
      (by omega : m < cfg.days.length * cfg.time_slots.length * cfg.rooms.length)
      (by omega : n < cfg.days.length * cfg.time_slots.length * cfg.rooms.length) hcontra
    omega

/-- The 2-day, 2-slot, 2-room configuration used to witness C5. -/
def fbWitnessConfig : Config :=
  { defaultConfig with days := ["Mon", "Tue"], time_slots := ["9:00", "10:00"],
                       rooms := ["R1", "R2"] }

/-- Witness for C5: with 2 days, 2 time slots and 2 rooms the triple at
index `0 + 2*2*2` equals the triple at index 0, while the first two
indices get distinct triples. -/
theorem fallback_round_robin_witness :
    fbTriple fbWitnessConfig
        (0 + fbWitnessConfig.days.length * fbWitnessConfig.time_slots.length *
          fbWitnessConfig.rooms.length) =
      fbTriple fbWitnessConfig 0 ∧
    fbTriple fbWitnessConfig 0 ≠ fbTriple fbWitnessConfig 1 := by
  have h := fallback_round_robin
    [{ id := "e1", name := none, duration := none, capacity_needed := none },
     { id := "e2", name := none, duration := none, capacity_needed := none }]
    fbWitnessConfig (by decide) (by decide) (by decide) (by decide) (by decide) (by decide)
  exact ⟨h.2.2.2.2 0, h.2.2.2.1 0 1 (by decide) (by decide)⟩

/-- A raw schedule row as handled by the Gemini adapter: a Python dict
whose keys may or may not be present (`parse_response` keeps whatever
dict rows the JSON held; fallback rows and GA genes fill all keys). -/
structure RawSlot where
  entity_id : Option String
  entity_name : Option String
  day : Option String
  time : Option String
  room : Option String
  duration : Option Nat
deriving DecidableEq, Repr

/-- Inject a fallback row into the raw dict shape. -/
def SlotRow.toRaw (r : SlotRow) : RawSlot :=
  { entity_id := some r.entity_id, entity_name := none, day := some r.day,
    time := some r.time, room := some r.room, duration := some r.duration }

/-- Inject a GA gene into the raw dict shape. -/
def Gene.toRaw (g : Gene) : RawSlot :=
  { entity_id := some g.entity_id, entity_name := some g.entity_name, day := some g.day,
    time := some g.time, room := some g.room, duration := some g.duration }

/-- The outcome of the JSON-array extraction inside
`GeminiScheduler.parse_response` (the markdown stripping, `find('[')` /
`rfind(']')` slicing and `json.loads` of the Python standard library are
modelled by their outcome): either no bracketed array was found, or the
slice failed to decode, or it decoded to a list of dict rows. -/
inductive RespText where
  | noArray
  | badJson
  | arr (rows : List RawSlot)

/-- The observable outcome of the single
`model.generate_content` round-trip in
`GeminiScheduler.generate_schedule_suggestions`: the call raised, or
returned no candidates, or returned a candidate with a finish reason and
(possibly) response text.  Prompt construction (`_simplify_entities`,
`_simplify_constraints`, `build_prompt`) only shapes the request string
and cannot change which branch runs. -/
inductive AdvisorCall where
  | raises
  | noCandidates
  | returns (finishReason : Nat) (text : Option RespText)

/-- One per-generation statistics record (`stats.compile` output).
`np.std` is the square root of the variance and is irrational in
general, so the record stores the variance (`std` squared); the fields
are `none` exactly when the population was empty (NaN in Python). -/
structure HistEntry where
  generation : Nat
  avg_fitness : Option Q
  max_fitness : Option Q
  min_fitness : Option Q
  var_fitness : Option Q

/-- The dict returned by `HybridOptimizer.optimize` (keys that a given
method does not set are `none`). -/
structure OptResult where
  schedule : List RawSlot
  method : String
  fitness : Option Q
  history : List HistEntry
  config_used : Option Config
  gemini_seed : Option Bool

/-- `GeminiScheduler.parse_response` on the extraction outcome: keep the
rows carrying an `entity_id`; fall back when nothing valid remains. -/
def parse_response (t : RespText) (ents : List Entity) (cfg : Config) :
    Except PyErr (List RawSlot) :=
  match t with
  | .noArray => (generate_fallback_schedule ents cfg).map (List.map SlotRow.toRaw)
  | .badJson => (generate_fallback_schedule ents cfg).map (List.map SlotRow.toRaw)
  | .arr rows =>
      let valid := rows.filter (fun s => s.entity_id.isSome)
      if valid.length = 0 then
        (generate_fallback_schedule ents cfg).map (List.map SlotRow.toRaw)
      else .ok valid

/-- `GeminiScheduler.generate_schedule_suggestions`: dispatch on the
advisor outcome; finish reasons 2 (SAFETY), 3 (RECITATION) and anything
outside `[0, 1]`, a missing/empty text, and a raised exception all take
the fallback path. -/
def generate_schedule_suggestions (ents : List Entity) (_cons : List Constraint)
    (cfg : Config) (call : AdvisorCall) : Except PyErr (List RawSlot) :=
  match call with
  | .raises => (generate_fallback_schedule ents cfg).map (List.map SlotRow.toRaw)
  | .noCandidates => (generate_fallback_schedule ents cfg).map (List.map SlotRow.toRaw)
  | .returns fr txt =>
      if fr = 2 then (generate_fallback_schedule ents cfg).map (List.map SlotRow.toRaw)
      else if fr = 3 then (generate_fallback_schedule ents cfg).map (List.map SlotRow.toRaw)
      else if ¬ (fr = 0 ∨ fr = 1) then
        (generate_fallback_schedule ents cfg).map (List.map SlotRow.toRaw)
      else
        match txt with
        | some t => parse_response t ents cfg
        | none => (generate_fallback_schedule ents cfg).map (List.map SlotRow.toRaw)

/-- `HybridOptimizer.optimize_with_gemini`: try the adapter; on an
exception, fall back once more (an exception from that second fallback —
possible only with an empty resource list — propagates, as in the
source); package the result dict with `fitness = None`, `history = []`
and the `schedule or []` guard. -/
def optimize_with_gemini (ents : List Entity) (cons : List Constraint) (cfg : Config)
    (call : AdvisorCall) : Except PyErr OptResult :=
  match
    (match generate_schedule_suggestions ents cons cfg call with
     | .ok s => .ok s
     | .error _ =>
         (generate_fallback_schedule ents cfg).map (List.map SlotRow.toRaw) :
      Except PyErr (List RawSlot)) with
  | .ok s =>
      .ok { schedule := if s.isEmpty then [] else s, method := "gemini", fitness := none,
            history := [], config_used := none, gemini_seed := none }
  | .error e => .error e

/-- The conditions under which the specification counts the advisor as
failing: exception, blocked/filtered/empty response, unparseable text,
or no row carrying an `entity_id`. -/
def advisorFails : AdvisorCall → Bool
  | .raises => true
  | .noCandidates => true
  | .returns fr txt =>
      if fr = 2 then true
      else if fr = 3 then true
      else if ¬ (fr = 0 ∨ fr = 1) then true
      else
        match txt with
        | some (.arr rows) => (rows.filter (fun s => s.entity_id.isSome)).length = 0
        | some .noArray => true
        | some .badJson => true
        | none => true

lemma list_or_empty {α : Type} (s : List α) : (if s.isEmpty then ([] : List α) else s) = s := by
  cases s <;> simp

lemma generate_fallback_ok (ents : List Entity) (cfg : Config)
    (hD : cfg.days ≠ []) (hT : cfg.time_slots ≠ []) (hR : cfg.rooms ≠ []) :
    generate_fallback_schedule ents cfg = .ok (fbSpec cfg ents 0) := by
  have h := fallbackAux_eq_spec cfg hD hT hR ents 0
  simpa [generate_fallback_schedule] using h

lemma map_ok {α β : Type} (f : α → β) (a : α) :
    (Except.ok a : Except PyErr α).map f = .ok (f a) := rfl

lemma map_error {α β : Type} (f : α → β) (e : PyErr) :
    (Except.error e : Except PyErr α).map f = .error e := rfl

lemma bind_ok_iff {α β : Type} (x : Except PyErr α) (f : α → Except PyErr β) (b : β) :
    x >>= f = .ok b ↔ ∃ a, x = .ok a ∧ f a = .ok b := by
  cases x with
  | error e =>
      constructor
      · intro h; exact absurd h (by simp [Bind.bind, Except.bind])
      · rintro ⟨a, ha, _⟩; exact absurd ha (by simp)
  | ok a =>
      constructor
      · intro h; exact ⟨a, rfl, h⟩
      · rintro ⟨a2, ha, hf⟩
        obtain rfl : a = a2 := by simpa using ha
        exact hf

/-- `deap.tools.selRandom`: `tournsize` draws of `random.choice` over the
population, in draw order. -/
def selRandom (pop : List Ind) (pick : Nat → Nat) : Nat → Nat → Except PyErr (List Ind)
  | 0, _ => .ok []
  | t + 1, d => do
      let x ← pyChoice pop (pick d)
      let xs ← selRandom pop pick t (d + 1)
      .ok (x :: xs)

/-- Python `max(aspirants, key=fitness)`: first maximal element; raises
ValueError on an empty sequence. -/
def pyMaxBy (f : Ind → Q) : List Ind → Except PyErr Ind
  | [] => .error .emptySequence
  | x :: xs => .ok (xs.foldl (fun m a => if qlt (f m) (f a) then a else m) x)

/-- `deap.tools.selTournament`: `k` rounds, each keeping the fittest of
`tournsize` uniformly drawn aspirants. -/
def selTournamentAux (f : Ind → Q) (pop : List Ind) (tournsize : Nat)
    (pick : Nat → Nat → Nat) : Nat → Nat → Except PyErr (List Ind)
  | 0, _ => .ok []
  | n + 1, r => do
      let asp ← selRandom pop (pick r) tournsize 0
      let best ← pyMaxBy f asp
      let rest ← selTournamentAux f pop tournsize pick n (r + 1)
      .ok (best :: rest)

def selTournament (f : Ind → Q) (pop : List Ind) (k tournsize : Nat)
    (pick : Nat → Nat → Nat) : Except PyErr (List Ind) :=
  selTournamentAux f pop tournsize pick k 0

/-- `deap.tools.cxTwoPoint`: cut points `cxpoint1 = randint(1, size)`,
`cxpoint2 = randint(1, size-1)` (raising when `size < 2`), adjusted so
`c1 < c2`, then the middle slices `[c1:c2]` are exchanged. -/
def cxTwoPoint (ind1 ind2 : Ind) (r1 r2 : Nat) : Except PyErr (Ind × Ind) := do
  let size := min ind1.length ind2.length
  let p1 ← pyRandint1 size r1
  let p2 ← pyRandint1 (size - 1) r2
  let c := if p1 ≤ p2 then (p1, p2 + 1) else (p2, p1)
  .ok (ind1.take c.1 ++ (ind2.drop c.1).take (c.2 - c.1) ++ ind1.drop c.2,
       ind2.take c.1 ++ (ind1.drop c.1).take (c.2 - c.1) ++ ind2.drop c.2)

/-- The crossover loop of `ScheduleGA.evolve`: consecutive offspring are
paired (`offspring[\x3a\x3a2]` with `offspring[1\x3a\x3a2]`); each pair mates with
probability `crossover_prob`; a trailing unpaired offspring is left as
is. -/
def crossoverPairs (cfg : Config) (cxR : Nat → Q) (cx1 cx2 : Nat → Nat) :
    Nat → List Ind → Except PyErr (List Ind)
  | k, a :: b :: rest => do
      let ab ←
        if qlt (cxR k) cfg.crossover_prob then cxTwoPoint a b (cx1 k) (cx2 k)
        else .ok (a, b)
      let rest2 ← crossoverPairs cfg cxR cx1 cx2 (k + 1) rest
      .ok (ab.1 :: ab.2 :: rest2)
  | _, l => .ok l

/-- The mutation loop of `ScheduleGA.evolve`: every offspring passes
through `mutate_schedule`. -/
def mutateAll (cfg : Config) (md : Nat → MutDraw) : Nat → List Ind → Except PyErr (List Ind)
  | _, [] => .ok []
  | k, x :: xs => do
      let x2 ← mutate_schedule cfg (md k) x
      let xs2 ← mutateAll cfg md (k + 1) xs
      .ok (x2 :: xs2)

/-- Stable insertion for the descending sort of `deap.tools.selBest`
(`sorted(..., reverse=True)` keeps the original order of equally fit
individuals). -/
def insertDescInd (f : Ind → Q) (x : Ind) : List Ind → List Ind
  | [] => [x]
  | y :: ys => if qlt (f y) (f x) then x :: y :: ys else y :: insertDescInd f x ys

def sortDescInd (f : Ind → Q) (l : List Ind) : List Ind :=
  l.foldl (fun acc x => insertDescInd f x acc) []

/-- `deap.tools.selBest`: the `k` fittest individuals, stably. -/
def selBest (f : Ind → Q) (pop : List Ind) (k : Nat) : List Ind :=
  (sortDescInd f pop).take k

/-- `deap.tools.HallOfFame(1).update`: walk the population in order,
replacing the retained individual only on a strictly greater fitness
(ties keep the earlier individual; with a deterministic evaluation the
`similar` check of DEAP never blocks a strictly better insert). -/
def hofUpdate (f : Ind → Q) : Option Ind → List Ind → Option Ind
  | h, [] => h
  | h, ind :: rest =>
      hofUpdate f
        (match h with
         | none => some ind
         | some b => if qlt (f b) (f ind) then some ind else some b) rest

/-- `elite_count = max(1, int(len(population) * elitism_rate))`. -/
def eliteCount (cfg : Config) (n : Nat) : Nat :=
  max 1 (qint (qmul (qofNat n) cfg.elitism_rate)).toNat

def qsum (l : List Q) : Q := l.foldl qadd (qofNat 0)

/-- `np.max` over the fitness values (`none` on an empty population,
where NumPy yields NaN). -/
def listMaxQ : List Q → Option Q
  | [] => none
  | x :: xs => some (xs.foldl (fun m a => if qlt m a then a else m) x)

/-- `np.min` over the fitness values. -/
def listMinQ : List Q → Option Q
  | [] => none
  | x :: xs => some (xs.foldl (fun m a => if qlt a m then a else m) x)

/-- Population variance of the fitness values (the square of `np.std`). -/
def qvarQ (l : List Q) : Q :=
  if l.length = 0 then qofNat 0
  else
    let n := qofNat l.length
    let mean := qdiv (qsum l) n
    qdiv (l.foldl (fun acc x => qadd acc (qmul (qsub x mean) (qsub x mean))) (qofNat 0)) n

/-- One `stats.compile` record plus the generation index, as appended to
`history`. -/
def mkHist (g : Nat) (fits : List Q) : HistEntry :=
  { generation := g
    avg_fitness := if fits.isEmpty then none else some (qdiv (qsum fits) (qofNat fits.length))
    max_fitness := listMaxQ fits
    min_fitness := listMinQ fits
    var_fitness := if fits.isEmpty then none else some (qvarQ fits) }

/-- `record["max"] >= 1000` — false when the record is NaN. -/
def earlyStop : Option Q → Bool
  | some m => decide (qle (qofNat 1000) m)
  | none => false

/-- The mutable state of the evolution loop. -/
structure EvoState where
  pop : List Ind
  hof : Option Ind
  hist : List HistEntry
  stopped : Bool

/-- All random draws one `evolve` run consumes, indexed by generation
and position. -/
structure EvoOrcl where
  initPick : Nat → Nat → Nat × Nat × Nat
  selPick : Nat → Nat → Nat → Nat
  cxR : Nat → Nat → Q
  cx1 : Nat → Nat → Nat
  cx2 : Nat → Nat → Nat
  mutOf : Nat → Nat → MutDraw

/-- One iteration of the `for gen in range(...)` loop of
`ScheduleGA.evolve`: evaluate, update stats / hall of fame / history,
stop early on a perfect score, else select, mate, mutate and replace
with elites (`population[\x3a] = offspring[\x3a-elite_count] + elites`).  A
`stopped` state models the `break`: later iterations change nothing. -/
def genStep (cfg : Config) (ents : List Entity) (cons : List Constraint) (orcl : EvoOrcl)
    (g : Nat) (st : EvoState) : Except PyErr EvoState :=
  if st.stopped then .ok st
  else
    let f := evaluate_fitness cfg ents cons
    let fits := st.pop.map f
    let hof2 := hofUpdate f st.hof st.pop
    let hist2 := st.hist ++ [mkHist g fits]
    if earlyStop (listMaxQ fits) then
      .ok { pop := st.pop, hof := hof2, hist := hist2, stopped := true }
    else do
      let offspring ← selTournament f st.pop st.pop.length cfg.tournament_size (orcl.selPick g)
      let offspring2 ← crossoverPairs cfg (orcl.cxR g) (orcl.cx1 g) (orcl.cx2 g) 0 offspring
      let offspring3 ← mutateAll cfg (orcl.mutOf g) 0 offspring2
      let ec := eliteCount cfg st.pop.length
      let elites := selBest f st.pop ec
      .ok { pop := offspring3.take (offspring3.length - ec) ++ elites,
            hof := hof2, hist := hist2, stopped := false }

/-- `toolbox.population(n=population_size)`: `population_size` calls of
`create_individual`. -/
def initPopAux (cfg : Config) (ents : List Entity) (pick : Nat → Nat → Nat × Nat × Nat) :
    Nat → Nat → Except PyErr (List Ind)
  | 0, _ => .ok []
  | n + 1, i => do
      let ind ← create_individual ents cfg (pick i)
      let rest ← initPopAux cfg ents pick n (i + 1)
      .ok (ind :: rest)

def initPop (cfg : Config) (ents : List Entity) (orcl : EvoOrcl) : Except PyErr (List Ind) :=
  initPopAux cfg ents orcl.initPick cfg.population_size 0

/-- Run the generation loop over the given generation indices. -/
def runGens (cfg : Config) (ents : List Entity) (cons : List Constraint) (orcl : EvoOrcl) :
    List Nat → EvoState → Except PyErr EvoState
  | [], st => .ok st
  | g :: gs, st => do
      let st2 ← genStep cfg ents cons orcl g st
      runGens cfg ents cons orcl gs st2

/-- The dict `ScheduleGA.evolve` returns. -/
structure GAResult where
  schedule : List Gene
  fitness : Q
  history : List HistEntry
  config_used : Config

/-- `ScheduleGA.evolve`: initialize the population, run all generations,
and read the best individual off the hall of fame — `hof[0]` raises
IndexError when the hall of fame never received an individual. -/
def evolve (cfg : Config) (ents : List Entity) (cons : List Constraint) (orcl : EvoOrcl) :
    Except PyErr GAResult := do
  let pop0 ← initPop cfg ents orcl
  let fin ← runGens cfg ents cons orcl (List.range cfg.generations) ⟨pop0, none, [], false⟩
  match fin.hof with
  | some best =>
      .ok { schedule := best, fitness := evaluate_fitness cfg ents cons best,
            history := fin.hist, config_used := cfg }
  | none => .error .hofIndexError

/-- The loop state after `g` generations of an `evolve` run (the
population of generation `g` is the one this state holds). -/
def gaTrace (cfg : Config) (ents : List Entity) (cons : List Constraint) (orcl : EvoOrcl)
    (g : Nat) : Except PyErr EvoState := do
  let pop0 ← initPop cfg ents orcl
  runGens cfg ents cons orcl (List.range g) ⟨pop0, none, [], false⟩

/-- Convert an `evolve` result dict into the common result-dict shape,
adding the `method` key (and `gemini_seed` for the hybrid path). -/
def gaToOpt (res : GAResult) (m : String) (seed : Option Bool) : OptResult :=
  { schedule := res.schedule.map Gene.toRaw, method := m, fitness := some res.fitness,
    history := res.history, config_used := some res.config_used, gemini_seed := seed }

/-- `HybridOptimizer.optimize`: dispatch on the method name; unknown
methods raise ValueError.  The hybrid path asks the advisor once on the
capped inputs purely to compute `has_seed` (exceptions swallowed), then
runs the plain GA. -/
def optimize (ents : List Entity) (cons : List Constraint) (cfg : Config) (method : String)
    (call : AdvisorCall) (orcl : EvoOrcl) : Except PyErr OptResult :=
  if method == "gemini" then optimize_with_gemini ents cons cfg call
  else if method == "genetic" then
    (evolve cfg ents cons orcl).map (fun r => gaToOpt r "genetic" none)
  else if method == "hybrid" then
    let seed :=
      match generate_schedule_suggestions (ents.take 30) (cons.take 10) cfg call with
      | .ok s => decide (0 < s.length)
      | .error _ => false
    (evolve cfg ents cons orcl).map (fun r => gaToOpt r "hybrid" (some seed))
  else .error .valueErrorUnknownMethod

lemma gss_fails (ents : List Entity) (cons : List Constraint) (cfg : Config)
    (call : AdvisorCall) (h : advisorFails call = true) :
    generate_schedule_suggestions ents cons cfg call =
      (generate_fallback_schedule ents cfg).map (List.map SlotRow.toRaw) := by
  cases call with
  | raises => rfl
  | noCandidates => rfl
  | returns fr txt =>
      simp only [advisorFails] at h
      simp only [generate_schedule_suggestions]
      split_ifs at h ⊢ with h2 h3 h01
      any_goals rfl
      cases txt with
      | none => rfl
      | some t =>
          cases t with
          | noArray => rfl
          | badJson => rfl
          | arr rows =>
              simp only [parse_response]
              rw [if_pos (of_decide_eq_true h)]

/-- C6: calling `optimize` with `method = "gemini"` when the advisor
fails (exception, blocked/empty/unparseable response, or no valid rows)
still returns a result — the deterministic fallback schedule with one
row per entity — with `fitness` absent and an empty `history`; no
exception reaches the caller. -/
theorem optimize_gemini_failure_result (ents : List Entity) (cons : List Constraint)
    (cfg : Config) (call : AdvisorCall) (orcl : EvoOrcl)
    (hD : cfg.days ≠ []) (hT : cfg.time_slots ≠ []) (hR : cfg.rooms ≠ [])
    (hfail : advisorFails call = true) :
    optimize ents cons cfg "gemini" call orcl =
      .ok { schedule := (fbSpec cfg ents 0).map SlotRow.toRaw, method := "gemini",
            fitness := none, history := [], config_used := none, gemini_seed := none } ∧
    ((fbSpec cfg ents 0).map SlotRow.toRaw).length = ents.length := by
  have hfb := generate_fallback_ok ents cfg hD hT hR
  have hg : generate_schedule_suggestions ents cons cfg call =
      .ok ((fbSpec cfg ents 0).map SlotRow.toRaw) := by
    rw [gss_fails ents cons cfg call hfail, hfb, map_ok]
  constructor
  · have hopt : optimize ents cons cfg "gemini" call orcl =
        optimize_with_gemini ents cons cfg call := by
      simp [optimize]
    rw [hopt]
    simp only [optimize_with_gemini, hg]
    rw [list_or_empty]
  · rw [List.length_map, fbSpec_length]

/-- Witness for C6: one entity, the default configuration, an advisor
exception — the result carries the one-row fallback schedule, no
fitness, and empty history. -/
theorem optimize_gemini_failure_result_witness :
    optimize [{ id := "w1", name := none, duration := none, capacity_needed := none }] []
        defaultConfig "gemini" .raises
        { initPick := fun _ _ => (0, 0, 0), selPick := fun _ _ _ => 0,
          cxR := fun _ _ => qofNat 1, cx1 := fun _ _ => 0, cx2 := fun _ _ => 0,
          mutOf := fun _ _ =>
            { r := qofNat 1, i := 0, j := 0, fieldR := 0, dayR := 0, timeR := 0, roomR := 0 } } =
      .ok { schedule :=
              (fbSpec defaultConfig
                [{ id := "w1", name := none, duration := none, capacity_needed := none }] 0).map
                SlotRow.toRaw,
            method := "gemini", fitness := none, history := [], config_used := none,
            gemini_seed := none } ∧
    ((fbSpec defaultConfig
        [{ id := "w1", name := none, duration := none, capacity_needed := none }] 0).map
        SlotRow.toRaw).length = 1 :=
  optimize_gemini_failure_result
    [{ id := "w1", name := none, duration := none, capacity_needed := none }] []
    defaultConfig .raises
    { initPick := fun _ _ => (0, 0, 0), selPick := fun _ _ _ => 0,
      cxR := fun _ _ => qofNat 1, cx1 := fun _ _ => 0, cx2 := fun _ _ => 0,
      mutOf := fun _ _ =>
        { r := qofNat 1, i := 0, j := 0, fieldR := 0, dayR := 0, timeR := 0, roomR := 0 } }
    (by decide) (by decide) (by decide) rfl

lemma runGens_append (cfg : Config) (ents : List Entity) (cons : List Constraint)
    (orcl : EvoOrcl) (l1 l2 : List Nat) (st : EvoState) :
    runGens cfg ents cons orcl (l1 ++ l2) st =
      (runGens cfg ents cons orcl l1 st) >>= runGens cfg ents cons orcl l2 := by
  induction l1 generalizing st with
  | nil => simp only [List.nil_append, runGens, ok_bind]
  | cons g gs ih =>
      simp only [List.cons_append, runGens]
      cases h : genStep cfg ents cons orcl g st with
      | error e => simp [Bind.bind, Except.bind]
      | ok st2 =>
          simp only [ok_bind]
          exact ih st2

lemma hofUpdate_mono (f : Ind → Q) (pop : List Ind) :
    ∀ b : Ind, ∃ b2, hofUpdate f (some b) pop = some b2 ∧ qle (f b) (f b2) := by
  induction pop with
  | nil => intro b; exact ⟨b, rfl, qle_refl _⟩
  | cons x xs ih =>
      intro b
      by_cases hx : qlt (f b) (f x)
      · obtain ⟨b2, h1, h2⟩ := ih x
        refine ⟨b2, ?_, qle_trans (qle_of_qlt hx) h2⟩
        simp only [hofUpdate, if_pos hx]
        exact h1
      · obtain ⟨b2, h1, h2⟩ := ih b
        refine ⟨b2, ?_, h2⟩
        simp only [hofUpdate, if_neg hx]
        exact h1

/-- Fitness of the retained hall-of-fame individual, if any. -/
def hofFitness (cfg : Config) (ents : List Entity) (cons : List Constraint)
    (st : EvoState) : Option Q :=
  st.hof.map (evaluate_fitness cfg ents cons)

/-- Pointwise order on optional fitness values: an absent value is below
everything, and a present value never becomes absent. -/
def optionQle : Option Q → Option Q → Prop
  | none, _ => True
  | some _, none => False
  | some a, some b => qle a b

lemma optionQle_refl (o : Option Q) : optionQle o o := by
  cases o with
  | none => exact trivial
  | some a => exact qle_refl a

lemma hofUpdate_opt_mono (f : Ind → Q) (h0 : Option Ind) (pop : List Ind) :
    optionQle (h0.map f) ((hofUpdate f h0 pop).map f) := by
  cases h0 with
  | none => exact trivial
  | some b =>
      obtain ⟨b2, h1, h2⟩ := hofUpdate_mono f pop b
      rw [h1]
      exact h2

lemma genStep_hof_mono (cfg : Config) (ents : List Entity) (cons : List Constraint)
    (orcl : EvoOrcl) (g : Nat) (st st2 : EvoState)
    (h : genStep cfg ents cons orcl g st = .ok st2) :
    optionQle (hofFitness cfg ents cons st) (hofFitness cfg ents cons st2) := by
  simp only [genStep] at h
  split_ifs at h with h1 h2
  · obtain rfl : st = st2 := by simpa using h
    exact optionQle_refl _
  · have heq := (Except.ok.injEq _ _).mp h
    subst heq
    exact hofUpdate_opt_mono (evaluate_fitness cfg ents cons) st.hof st.pop
  · obtain ⟨o1, ho1, h⟩ := (bind_ok_iff _ _ _).mp h
    obtain ⟨o2, ho2, h⟩ := (bind_ok_iff _ _ _).mp h
    obtain ⟨o3, ho3, h⟩ := (bind_ok_iff _ _ _).mp h
    have heq := (Except.ok.injEq _ _).mp h
    subst heq
    exact hofUpdate_opt_mono (evaluate_fitness cfg ents cons) st.hof st.pop

/-- C3: across consecutive generations of any `evolve` run, the fitness
of the hall-of-fame individual never decreases: the size-1 hall of fame
is replaced only by a strictly fitter individual, whatever the
population does. -/
theorem hall_of_fame_fitness_monotone (cfg : Config) (ents : List Entity)
    (cons : List Constraint) (orcl : EvoOrcl) (g : Nat) (s s2 : EvoState)
    (hg : g + 1 ≤ cfg.generations)
    (h1 : gaTrace cfg ents cons orcl g = .ok s)
    (h2 : gaTrace cfg ents cons orcl (g + 1) = .ok s2) :
    optionQle (hofFitness cfg ents cons s) (hofFitness cfg ents cons s2) := by
  unfold gaTrace at h1 h2
  obtain ⟨p0, hp0, hrun1⟩ := (bind_ok_iff _ _ _).mp h1
  obtain ⟨p0b, hp0b, hrun2⟩ := (bind_ok_iff _ _ _).mp h2
  rw [hp0] at hp0b
  obtain rfl : p0 = p0b := by simpa using hp0b
  rw [List.range_succ, runGens_append, hrun1, ok_bind] at hrun2
  simp only [runGens] at hrun2
  obtain ⟨st2, hstep, hfin⟩ := (bind_ok_iff _ _ _).mp hrun2
  obtain rfl : st2 = s2 := by simpa [runGens] using hfin
  exact genStep_hof_mono cfg ents cons orcl g s st2 hstep

/-- An oracle whose draws never fire a probability check and always pick
index 0. -/
def orclZero : EvoOrcl :=
  { initPick := fun _ _ => (0, 0, 0), selPick := fun _ _ _ => 0,
    cxR := fun _ _ => qofNat 1, cx1 := fun _ _ => 0, cx2 := fun _ _ => 0,
    mutOf := fun _ _ =>
      { r := qofNat 1, i := 0, j := 0, fieldR := 0, dayR := 0, timeR := 0, roomR := 0 } }

/-- One-individual, two-generation run used to witness C3. -/
def c3wConfig : Config := { defaultConfig with population_size := 1, generations := 2 }

def c3wEnts : List Entity :=
  [{ id := "m1", name := none, duration := none, capacity_needed := none }]

def c3wState1 : EvoState :=
  match gaTrace c3wConfig c3wEnts [] orclZero 1 with
  | .ok st => st
  | .error _ => { pop := [], hof := none, hist := [], stopped := false }

def c3wState2 : EvoState :=
  match gaTrace c3wConfig c3wEnts [] orclZero 2 with
  | .ok st => st
  | .error _ => { pop := [], hof := none, hist := [], stopped := false }

/-- Witness for C3 on a concrete two-generation run. -/
theorem hall_of_fame_fitness_monotone_witness :
    optionQle (hofFitness c3wConfig c3wEnts [] c3wState1)
      (hofFitness c3wConfig c3wEnts [] c3wState2) :=
  hall_of_fame_fitness_monotone c3wConfig c3wEnts [] orclZero 1 c3wState1 c3wState2
    (by decide) rfl rfl

lemma genStep_empty (cfg : Config) (ents : List Entity) (cons : List Constraint)
    (orcl : EvoOrcl) (g : Nat) (st st2 : EvoState)
    (h1 : st.pop = []) (h2 : st.hof = none)
    (h : genStep cfg ents cons orcl g st = .ok st2) :
    st2.pop = [] ∧ st2.hof = none := by
  simp only [genStep, h1, h2] at h
  split_ifs at h with hs he
  · obtain rfl : st = st2 := by simpa using h
    exact ⟨h1, h2⟩
  · simp [listMaxQ, earlyStop] at he
  · simp only [List.length_nil, selTournament, selTournamentAux, ok_bind, crossoverPairs,
      mutateAll, List.take_nil, hofUpdate, List.map_nil] at h
    have heq := (Except.ok.injEq _ _).mp h
    subst heq
    constructor
    · simp [selBest, sortDescInd, List.take_nil]
    · rfl

lemma runGens_empty_pop (cfg : Config) (ents : List Entity) (cons : List Constraint)
    (orcl : EvoOrcl) (gs : List Nat) :
    ∀ st fin : EvoState, st.pop = [] → st.hof = none →
      runGens cfg ents cons orcl gs st = .ok fin → fin.pop = [] ∧ fin.hof = none := by
  induction gs with
  | nil =>
      intro st fin h1 h2 h
      obtain rfl : st = fin := by simpa [runGens] using h
      exact ⟨h1, h2⟩
  | cons g rest ih =>
      intro st fin h1 h2 h
      simp only [runGens] at h
      obtain ⟨st2, hstep, hrest⟩ := (bind_ok_iff _ _ _).mp h
      obtain ⟨h3, h4⟩ := genStep_empty cfg ents cons orcl g st st2 h1 h2 hstep
      exact ih st2 fin h3 h4 hrest

/-- C10: `evolve` produces a result only when the run performs at least
one generation on a non-empty population: with `generations = 0` (and a
successfully initialized population) the hall of fame is never updated
and the final `hof[0]` access raises IndexError instead of returning;
and any returned result implies `generations ≥ 1` and
`population_size ≥ 1`. -/
theorem evolve_requires_generation_and_population (cfg : Config) (ents : List Entity)
    (cons : List Constraint) (orcl : EvoOrcl) :
    (∀ p0, cfg.generations = 0 → initPop cfg ents orcl = .ok p0 →
      evolve cfg ents cons orcl = .error .hofIndexError) ∧
    (∀ r, evolve cfg ents cons orcl = .ok r →
      1 ≤ cfg.generations ∧ 1 ≤ cfg.population_size) := by
  constructor
  · intro p0 hgen hp0
    simp [evolve, hgen, hp0, ok_bind, runGens]
  · intro r hr
    unfold evolve at hr
    obtain ⟨p0, hp0, hrest⟩ := (bind_ok_iff _ _ _).mp hr
    obtain ⟨fin, hfin, hmatch⟩ := (bind_ok_iff _ _ _).mp hrest
    constructor
    · by_contra hcon
      have hgen : cfg.generations = 0 := by omega
      rw [hgen] at hfin
      obtain rfl : ({ pop := p0, hof := none, hist := [], stopped := false } : EvoState) =
          fin := by simpa [runGens, List.range_zero] using hfin
      simp at hmatch
    · by_contra hcon
      have hpop : cfg.population_size = 0 := by omega
      have hp0e : initPop cfg ents orcl = .ok [] := by
        simp [initPop, hpop, initPopAux]
      rw [hp0e] at hp0
      obtain rfl : p0 = [] := by simpa using hp0
      obtain ⟨_, hnone⟩ := runGens_empty_pop cfg ents cons orcl (List.range cfg.generations)
        { pop := [], hof := none, hist := [], stopped := false } fin rfl rfl hfin
      rw [hnone] at hmatch
      simp at hmatch

/-- Zero-generation configuration used to witness C10. -/
def c10wConfig : Config := { defaultConfig with population_size := 1, generations := 0 }

/-- Witness for C10: a concrete zero-generation run ends in the IndexError
from `hof[0]`. -/
theorem evolve_requires_generation_and_population_witness :
    evolve c10wConfig c3wEnts [] orclZero = .error .hofIndexError :=
  (evolve_requires_generation_and_population c10wConfig c3wEnts [] orclZero).1
    (match initPop c10wConfig c3wEnts orclZero with
     | .ok p => p
     | .error _ => []) rfl rfl

lemma error_bind {α β : Type} (e : PyErr) (f : α → Except PyErr β) :
    (Except.error e : Except PyErr α) >>= f = .error e := rfl

lemma pyChoice_error {α : Type} (l : List α) (r : Nat) (e : PyErr)
    (h : pyChoice l r = .error e) : e = .emptyListAccess := by
  unfold pyChoice at h
  split at h
  · exact absurd h (by simp)
  · simpa using h.symm

lemma createGenes_empty_fail (cfg : Config) (pick : Nat → Nat × Nat × Nat)
    (hempty : cfg.days = [] ∨ cfg.time_slots = [] ∨ cfg.rooms = [])
    (e : Entity) (rest : List Entity) (k : Nat) :
    createGenes cfg pick (e :: rest) k = .error .emptyListAccess := by
  rcases hempty with h | h | h
  · simp [createGenes, h, pyChoice, error_bind]
  · cases hd : pyChoice cfg.days ((pick k).1) with
    | error e1 =>
        obtain rfl := pyChoice_error _ _ _ hd
        simp [createGenes, hd, error_bind]
    | ok d =>
        simp only [createGenes, hd, ok_bind]
        simp [h, pyChoice, error_bind]
  · cases hd : pyChoice cfg.days ((pick k).1) with
    | error e1 =>
        obtain rfl := pyChoice_error _ _ _ hd
        simp [createGenes, hd, error_bind]
    | ok d =>
        cases ht : pyChoice cfg.time_slots ((pick k).2.1) with
        | error e2 =>
            obtain rfl := pyChoice_error _ _ _ ht
            simp only [createGenes, hd, ht, ok_bind]
            simp [error_bind]
        | ok t =>
            simp only [createGenes, hd, ht, ok_bind]
            simp [h, pyChoice, error_bind]

lemma initPop_empty_fail (cfg : Config) (ents : List Entity) (orcl : EvoOrcl)
    (hempty : cfg.days = [] ∨ cfg.time_slots = [] ∨ cfg.rooms = [])
    (hents : ents ≠ []) (hpop : 1 ≤ cfg.population_size) :
    initPop cfg ents orcl = .error .emptyListAccess := by
  obtain ⟨e, rest, rfl⟩ := List.exists_cons_of_ne_nil hents
  obtain ⟨n, hn⟩ : ∃ n, cfg.population_size = n + 1 := ⟨cfg.population_size - 1, by omega⟩
  simp [initPop, hn, initPopAux, create_individual,
    createGenes_empty_fail cfg _ hempty, error_bind]

/-- C7 (amended): an empty `days`, `time_slots` or `rooms` list is not
validated up front — `ScheduleGA.__init__` performs no check and no
ConfigurationError exists in the code.  The genetic path instead fails
with the IndexError from `random.choice` on the empty list, raised while
the first Individual of the initial population is being created. -/
theorem optimize_empty_resource_fails_at_creation (ents : List Entity)
    (cons : List Constraint) (cfg : Config) (call : AdvisorCall) (orcl : EvoOrcl)
    (hempty : cfg.days = [] ∨ cfg.time_slots = [] ∨ cfg.rooms = [])
    (hents : ents ≠ []) (hpop : 1 ≤ cfg.population_size) :
    optimize ents cons cfg "genetic" call orcl = .error .emptyListAccess ∧
      PyErr.emptyListAccess ≠ PyErr.configurationError := by
  constructor
  · simp [optimize, evolve, initPop_empty_fail cfg ents orcl hempty hents hpop,
      error_bind, map_error]
  · decide

/-- Configuration with an empty `days` list (other fields default). -/
def c7Config : Config := { defaultConfig with days := [] }

/-- C7 counterexample: with `days = []` no ConfigurationError is raised
before computation — the genetic path runs until individual creation and
dies there with the empty-list IndexError, a different error kind. -/
theorem optimize_empty_days_not_config_error :
    optimize [{ id := "x1", name := none, duration := none, capacity_needed := none }] []
        c7Config "genetic" .raises orclZero = .error .emptyListAccess ∧
      PyErr.emptyListAccess ≠ PyErr.configurationError := by
  constructor
  · rfl
  · decide

/-- Configuration with an empty `rooms` list (other fields default). -/
def c7wConfig : Config := { defaultConfig with rooms := [] }

/-- Witness for C7 (amended), on an empty `rooms` list. -/
theorem optimize_empty_resource_fails_at_creation_witness :
    optimize [{ id := "x2", name := none, duration := none, capacity_needed := none }] []
        c7wConfig "genetic" .raises orclZero = .error .emptyListAccess :=
  (optimize_empty_resource_fails_at_creation
    [{ id := "x2", name := none, duration := none, capacity_needed := none }] []
    c7wConfig .raises orclZero (Or.inr (Or.inr rfl)) (by decide) (by decide)).1

lemma pyChoice_ok_mem {α : Type} (l : List α) (r : Nat) (a : α)
    (h : pyChoice l r = .ok a) : a ∈ l := by
  unfold pyChoice at h
  split at h
  · obtain rfl : _ = a := by simpa using h
    exact List.getElem?_mem (by assumption)
  · exact absurd h (by simp)

lemma selRandom_mem (pop : List Ind) (pick : Nat → Nat) :
    ∀ (t d : Nat) (out : List Ind), selRandom pop pick t d = .ok out →
      ∀ x ∈ out, x ∈ pop := by
  intro t
  induction t with
  | zero =>
      intro d out h x hx
      obtain rfl : [] = out := by simpa [selRandom] using h
      simp at hx
  | succ t ih =>
      intro d out h x hx
      simp only [selRandom] at h
      obtain ⟨a, ha, h⟩ := (bind_ok_iff _ _ _).mp h
      obtain ⟨xs, hxs, h⟩ := (bind_ok_iff _ _ _).mp h
      obtain rfl : a :: xs = out := by simpa using h
      rcases List.mem_cons.mp hx with rfl | hmem
      · exact pyChoice_ok_mem pop _ x ha
      · exact ih (d + 1) xs hxs x hmem

lemma foldl_max_mem (f : Ind → Q) :
    ∀ (xs : List Ind) (x : Ind),
      xs.foldl (fun m a => if qlt (f m) (f a) then a else m) x ∈ x :: xs := by
  intro xs
  induction xs with
  | nil => intro x; simp
  | cons y ys ih =>
      intro x
      simp only [List.foldl_cons]
      by_cases hc : qlt (f x) (f y)
      · rw [if_pos hc]
        exact List.mem_cons_of_mem x (ih y)
      · rw [if_neg hc]
        rcases List.mem_cons.mp (ih x) with heq | hmem
        · rw [heq]
          simp
        · exact List.mem_cons_of_mem _ (List.mem_cons_of_mem _ hmem)

lemma pyMaxBy_mem (f : Ind → Q) (l : List Ind) (m : Ind)
    (h : pyMaxBy f l = .ok m) : m ∈ l := by
  cases l with
  | nil => exact absurd h (by simp [pyMaxBy])
  | cons x xs =>
      obtain rfl : _ = m := by simpa [pyMaxBy] using h
      exact foldl_max_mem f xs x

lemma selTournamentAux_mem (f : Ind → Q) (pop : List Ind) (tournsize : Nat)
    (pick : Nat → Nat → Nat) :
    ∀ (n r : Nat) (out : List Ind), selTournamentAux f pop tournsize pick n r = .ok out →
      ∀ x ∈ out, x ∈ pop := by
  intro n
  induction n with
  | zero =>
      intro r out h x hx
      obtain rfl : [] = out := by simpa [selTournamentAux] using h
      simp at hx
  | succ n ih =>
      intro r out h x hx
      simp only [selTournamentAux] at h
      obtain ⟨asp, hasp, h⟩ := (bind_ok_iff _ _ _).mp h
      obtain ⟨best, hbest, h⟩ := (bind_ok_iff _ _ _).mp h
      obtain ⟨rest, hrest, h⟩ := (bind_ok_iff _ _ _).mp h
      obtain rfl : best :: rest = out := by simpa using h
      rcases List.mem_cons.mp hx with rfl | hmem
      · exact selRandom_mem pop _ tournsize 0 asp hasp x (pyMaxBy_mem f asp x hbest)
      · exact ih (r + 1) rest hrest x hmem

lemma pyRandint1_ok (hi r p : Nat) (h : pyRandint1 hi r = .ok p) :
    hi ≠ 0 ∧ p = 1 + r % hi := by
  unfold pyRandint1 at h
  split at h
  · exact absurd h (by simp)
  · exact ⟨by assumption, by simpa using h.symm⟩

lemma cxTwoPoint_length (a b : Ind) (r1 r2 : Nat) (pr : Ind × Ind)
    (h : cxTwoPoint a b r1 r2 = .ok pr) (hab : a.length = b.length) :
    pr.1.length = a.length ∧ pr.2.length = a.length := by
  simp only [cxTwoPoint] at h
  obtain ⟨p1, hp1, h⟩ := (bind_ok_iff _ _ _).mp h
  obtain ⟨p2, hp2, h⟩ := (bind_ok_iff _ _ _).mp h
  obtain ⟨hs1, hp1v⟩ := pyRandint1_ok _ _ _ hp1
  obtain ⟨hs2, hp2v⟩ := pyRandint1_ok _ _ _ hp2
  have hmin : min a.length b.length = a.length := by omega
  have hsize2 : 2 ≤ min a.length b.length := by omega
  have hb1 : p1 ≤ min a.length b.length := by
    have := Nat.mod_lt r1 (show 0 < min a.length b.length by omega)
    omega
  have hb2 : p2 ≤ min a.length b.length - 1 := by
    have := Nat.mod_lt r2 (show 0 < min a.length b.length - 1 by omega)
    omega
  have hp1pos : 1 ≤ p1 := by omega
  have hp2pos : 1 ≤ p2 := by omega
  obtain rfl : _ = pr := by simpa using h
  by_cases hc : p1 ≤ p2
  · rw [if_pos hc]
    constructor <;>
      · simp only [List.length_append, List.length_take, List.length_drop]
        omega
  · rw [if_neg hc]
    constructor <;>
      · simp only [List.length_append, List.length_take, List.length_drop]
        omega

lemma list_pair_induction {α : Type} (P : List α → Prop) (h0 : P []) (h1 : ∀ a, P [a])
    (h2 : ∀ a b rest, P rest → P (a :: b :: rest)) : ∀ l, P l := by
  have key : ∀ (n : Nat) (l : List α), l.length ≤ n → P l := by
    intro n
    induction n with
    | zero =>
        intro l h
        obtain rfl : l = [] := List.eq_nil_of_length_eq_zero (by omega)
        exact h0
    | succ n ih =>
        intro l h
        cases l with
        | nil => exact h0
        | cons a l2 =>
            cases l2 with
            | nil => exact h1 a
            | cons b rest =>
                refine h2 a b rest (ih rest ?_)
                simp only [List.length_cons] at h
                omega
  exact fun l => key l.length l le_rfl

lemma crossoverPairs_length (cfg : Config) (cxR : Nat → Q) (cx1 cx2 : Nat → Nat) (L : Nat) :
    ∀ (l : List Ind) (k : Nat) (out : List Ind),
      (∀ x ∈ l, x.length = L) → crossoverPairs cfg cxR cx1 cx2 k l = .ok out →
      ∀ y ∈ out, y.length = L := by
  intro l
  induction l using list_pair_induction with
  | h0 =>
      intro k out hl h y hy
      obtain rfl : [] = out := by simpa [crossoverPairs] using h
      simp at hy
  | h1 a =>
      intro k out hl h y hy
      obtain rfl : [a] = out := by simpa [crossoverPairs] using h
      rcases List.mem_singleton.mp hy with rfl
      exact hl y (by simp)
  | h2 a b rest ih =>
      intro k out hl h y hy
      simp only [crossoverPairs] at h
      have hla : a.length = L := hl a (by simp)
      have hlb : b.length = L := hl b (by simp)
      split_ifs at h with hfire
      · obtain ⟨ab, hab, h⟩ := (bind_ok_iff _ _ _).mp h
        obtain ⟨rest2, hrest2, h⟩ := (bind_ok_iff _ _ _).mp h
        obtain rfl : ab.1 :: ab.2 :: rest2 = out := by simpa using h
        have habl := cxTwoPoint_length a b (cx1 k) (cx2 k) ab hab (by omega)
        rcases List.mem_cons.mp hy with rfl | hy2
        · omega
        · rcases List.mem_cons.mp hy2 with rfl | hy3
          · omega
          · exact ih (k + 1) rest2 (fun x hx => hl x (by simp [hx])) hrest2 y hy3
      · obtain ⟨ab, hab, h⟩ := (bind_ok_iff _ _ _).mp h
        obtain rfl : (a, b) = ab := by simpa using hab
        obtain ⟨rest2, hrest2, h⟩ := (bind_ok_iff _ _ _).mp h
        obtain rfl : a :: b :: rest2 = out := by simpa using h
        rcases List.mem_cons.mp hy with rfl | hy2
        · exact hla
        · rcases List.mem_cons.mp hy2 with rfl | hy3
          · exact hlb
          · exact ih (k + 1) rest2 (fun x hx => hl x (by simp [hx])) hrest2 y hy3

lemma pySample2_ok (n r1 r2 i j : Nat) (h : pySample2 n r1 r2 = .ok (i, j)) :
    2 ≤ n ∧ i < n ∧ j < n ∧ i ≠ j := by
  unfold pySample2 at h
  split at h
  · have hn : 2 ≤ n := by assumption
    have hkey : r1 % n = i ∧
        (if r1 % n ≤ r2 % (n - 1) then r2 % (n - 1) + 1 else r2 % (n - 1)) = j := by
      simpa [Except.ok.injEq, Prod.mk.injEq] using h
    have hi : i < n := by
      rw [← hkey.1]; exact Nat.mod_lt _ (by omega)
    have hj0 : r2 % (n - 1) < n - 1 := Nat.mod_lt _ (by omega)
    refine ⟨hn, hi, ?_, ?_⟩
    · rw [← hkey.2]; split <;> omega
    · rw [← hkey.1, ← hkey.2]; split <;> omega
  · exact absurd h (by simp)

lemma mutate_length (cfg : Config) (dr : MutDraw) (ind out : Ind)
    (h : mutate_schedule cfg dr ind = .ok out) : out.length = ind.length := by
  unfold mutate_schedule at h
  split_ifs at h with hfire hswap hlen hshift hrand
  · obtain ⟨ij, hij, h⟩ := (bind_ok_iff _ _ _).mp h
    obtain rfl : _ = out := by simpa using h
    simp [List.length_set]
  · obtain rfl : ind = out := by simpa using h
    rfl
  · obtain ⟨idx, hidx, h⟩ := (bind_ok_iff _ _ _).mp h
    obtain ⟨fld, hfld, h⟩ := (bind_ok_iff _ _ _).mp h
    split_ifs at h with hd ht
    · obtain ⟨v, hv, h⟩ := (bind_ok_iff _ _ _).mp h
      obtain rfl : _ = out := by simpa using h
      simp [List.length_set]
    · obtain ⟨v, hv, h⟩ := (bind_ok_iff _ _ _).mp h
      obtain rfl : _ = out := by simpa using h
      simp [List.length_set]
    · obtain ⟨v, hv, h⟩ := (bind_ok_iff _ _ _).mp h
      obtain rfl : _ = out := by simpa using h
      simp [List.length_set]
  · obtain ⟨idx, hidx, h⟩ := (bind_ok_iff _ _ _).mp h
    obtain ⟨d, hd, h⟩ := (bind_ok_iff _ _ _).mp h
    obtain ⟨t, ht, h⟩ := (bind_ok_iff _ _ _).mp h
    obtain ⟨r, hrr, h⟩ := (bind_ok_iff _ _ _).mp h
    obtain rfl : _ = out := by simpa using h
    simp [List.length_set]
  · obtain rfl : ind = out := by simpa using h
    rfl
  · obtain rfl : ind = out := by simpa using h
    rfl

lemma mutateAll_length (cfg : Config) (md : Nat → MutDraw) (L : Nat) :
    ∀ (l : List Ind) (k : Nat) (out : List Ind),
      (∀ x ∈ l, x.length = L) → mutateAll cfg md k l = .ok out →
      ∀ y ∈ out, y.length = L := by
  intro l
  induction l with
  | nil =>
      intro k out hl h y hy
      obtain rfl : [] = out := by simpa [mutateAll] using h
      simp at hy
  | cons x xs ih =>
      intro k out hl h y hy
      simp only [mutateAll] at h
      obtain ⟨x2, hx2, h⟩ := (bind_ok_iff _ _ _).mp h
      obtain ⟨xs2, hxs2, h⟩ := (bind_ok_iff _ _ _).mp h
      obtain rfl : x2 :: xs2 = out := by simpa using h
      rcases List.mem_cons.mp hy with rfl | hy2
      · rw [mutate_length cfg (md k) x y hx2]
        exact hl x (by simp)
      · exact ih (k + 1) xs2 (fun z hz => hl z (by simp [hz])) hxs2 y hy2

lemma insertDescInd_perm (f : Ind → Q) (x : Ind) :
    ∀ l : List Ind, (insertDescInd f x l).Perm (x :: l) := by
  intro l
  induction l with
  | nil => exact List.Perm.refl _
  | cons y ys ih =>
      simp only [insertDescInd]
      by_cases hc : qlt (f y) (f x)
      · rw [if_pos hc]
      · rw [if_neg hc]
        exact (ih.cons y).trans (List.Perm.swap x y ys)

lemma sortDescInd_perm (f : Ind → Q) (l : List Ind) : (sortDescInd f l).Perm l := by
  have key : ∀ (l acc : List Ind),
      (l.foldl (fun acc x => insertDescInd f x acc) acc).Perm (acc ++ l) := by
    intro l
    induction l with
    | nil => intro acc; simp
    | cons x xs ih =>
        intro acc
        simp only [List.foldl_cons]
        refine (ih (insertDescInd f x acc)).trans ?_
        have h1 : (insertDescInd f x acc ++ xs).Perm ((x :: acc) ++ xs) :=
          (insertDescInd_perm f x acc).append_right xs
        refine h1.trans ?_
        simpa using List.perm_middle.symm
  simpa using key l []

lemma selBest_mem (f : Ind → Q) (pop : List Ind) (k : Nat) :
    ∀ x ∈ selBest f pop k, x ∈ pop := by
  intro x hx
  have h1 : x ∈ sortDescInd f pop := List.mem_of_mem_take hx
  exact (sortDescInd_perm f pop).mem_iff.mp h1

lemma createGenes_ok_length (cfg : Config) (pick : Nat → Nat × Nat × Nat) :
    ∀ (ents : List Entity) (k : Nat) (gs : List Gene),
      createGenes cfg pick ents k = .ok gs → gs.length = ents.length := by
  intro ents
  induction ents with
  | nil =>
      intro k gs h
      obtain rfl : [] = gs := by simpa [createGenes] using h
      rfl
  | cons e rest ih =>
      intro k gs h
      simp only [createGenes] at h
      obtain ⟨d, hd, h⟩ := (bind_ok_iff _ _ _).mp h
      obtain ⟨t, ht, h⟩ := (bind_ok_iff _ _ _).mp h
      obtain ⟨r, hrr, h⟩ := (bind_ok_iff _ _ _).mp h
      obtain ⟨gs2, hgs2, h⟩ := (bind_ok_iff _ _ _).mp h
      obtain rfl : _ = gs := by simpa using h
      simp [ih (k + 1) gs2 hgs2]

lemma initPopAux_length (cfg : Config) (ents : List Entity)
    (pick : Nat → Nat → Nat × Nat × Nat) :
    ∀ (n i : Nat) (pop : List Ind), initPopAux cfg ents pick n i = .ok pop →
      ∀ ind ∈ pop, ind.length = ents.length := by
  intro n
  induction n with
  | zero =>
      intro i pop h ind hind
      obtain rfl : [] = pop := by simpa [initPopAux] using h
      simp at hind
  | succ n ih =>
      intro i pop h ind hind
      simp only [initPopAux] at h
      obtain ⟨x, hx, h⟩ := (bind_ok_iff _ _ _).mp h
      obtain ⟨rest, hrest, h⟩ := (bind_ok_iff _ _ _).mp h
      obtain rfl : x :: rest = pop := by simpa using h
      rcases List.mem_cons.mp hind with rfl | hmem
      · exact createGenes_ok_length cfg _ ents 0 ind hx
      · exact ih (i + 1) rest hrest ind hmem

lemma genStep_length (cfg : Config) (ents : List Entity) (cons : List Constraint)
    (orcl : EvoOrcl) (g : Nat) (st st2 : EvoState)
    (h : genStep cfg ents cons orcl g st = .ok st2)
    (hinv : ∀ ind ∈ st.pop, ind.length = ents.length) :
    ∀ ind ∈ st2.pop, ind.length = ents.length := by
  simp only [genStep] at h
  split_ifs at h with h1 h2
  · obtain rfl : st = st2 := by simpa using h
    exact hinv
  · have heq := (Except.ok.injEq _ _).mp h
    subst heq
    exact hinv
  · obtain ⟨o1, ho1, h⟩ := (bind_ok_iff _ _ _).mp h
    obtain ⟨o2, ho2, h⟩ := (bind_ok_iff _ _ _).mp h
    obtain ⟨o3, ho3, h⟩ := (bind_ok_iff _ _ _).mp h
    have heq := (Except.ok.injEq _ _).mp h
    subst heq
    have hsel : ∀ x ∈ o1, x.length = ents.length := fun x hx =>
      hinv x (selTournamentAux_mem _ st.pop _ _ _ 0 o1 ho1 x hx)
    have hcx : ∀ x ∈ o2, x.length = ents.length :=
      crossoverPairs_length cfg _ _ _ ents.length o1 0 o2 hsel ho2
    have hmut : ∀ x ∈ o3, x.length = ents.length :=
      mutateAll_length cfg _ ents.length o2 0 o3 hcx ho3
    intro ind hind
    rcases List.mem_append.mp hind with hl | hr
    · exact hmut ind (List.mem_of_mem_take hl)
    · exact hinv ind (selBest_mem _ st.pop _ ind hr)

lemma runGens_length (cfg : Config) (ents : List Entity) (cons : List Constraint)
    (orcl : EvoOrcl) (gs : List Nat) :
    ∀ (st fin : EvoState), (∀ ind ∈ st.pop, ind.length = ents.length) →
      runGens cfg ents cons orcl gs st = .ok fin →
      ∀ ind ∈ fin.pop, ind.length = ents.length := by
  induction gs with
  | nil =>
      intro st fin hinv h
      obtain rfl : st = fin := by simpa [runGens] using h
      exact hinv
  | cons g rest ih =>
      intro st fin hinv h
      simp only [runGens] at h
      obtain ⟨st2, hstep, hrest⟩ := (bind_ok_iff _ _ _).mp h
      exact ih st2 fin (genStep_length cfg ents cons orcl g st st2 hstep hinv) hrest

lemma getD_map (f : Gene → String) (l : List Gene) (n : Nat) (d : Gene)
    (h : n < l.length) : (l.map f).getD n (f d) = f (l.getD n d) := by
  rw [List.getD_eq_getElem _ _ (by simpa using h), List.getD_eq_getElem _ _ h,
    List.getElem_map]

lemma set_getD_self {α : Type} : ∀ (l : List α) (i : Nat) (d : α), i < l.length →
    l.set i (l.getD i d) = l := by
  intro l
  induction l with
  | nil => intro i d h; simp at h
  | cons x xs ih =>
      intro i d h
      cases i with
      | zero => rfl
      | succ i =>
          simp only [List.set_cons_succ, List.cons.injEq, true_and]
          exact ih i d (by simpa using h)

lemma cons_getD_set_perm {α : Type} :
    ∀ (xs : List α) (k : Nat) (x d : α), k < xs.length →
      (xs.getD k d :: xs.set k x).Perm (x :: xs) := by
  intro xs
  induction xs with
  | nil => intro k x d h; simp at h
  | cons y ys ih =>
      intro k x d h
      cases k with
      | zero => exact List.Perm.swap x y ys
      | succ k =>
          have h2 : (ys.getD k d :: ys.set k x).Perm (x :: ys) := ih k x d (by simpa using h)
          have s1 : (ys.getD k d :: y :: ys.set k x).Perm (y :: ys.getD k d :: ys.set k x) :=
            List.Perm.swap y (ys.getD k d) (ys.set k x)
          have s2 : (y :: ys.getD k d :: ys.set k x).Perm (y :: x :: ys) := h2.cons y
          have s3 : (y :: x :: ys).Perm (x :: y :: ys) := List.Perm.swap x y ys
          exact (s1.trans s2).trans s3

lemma set_set_perm {α : Type} :
    ∀ (l : List α) (i j : Nat) (d : α), i < l.length → j < l.length →
      ((l.set i (l.getD j d)).set j (l.getD i d)).Perm l := by
  intro l
  induction l with
  | nil => intro i j d hi hj; simp at hi
  | cons x xs ih =>
      intro i j d hi hj
      cases i with
      | zero =>
          cases j with
          | zero => simp
          | succ j =>
              have hjx : j < xs.length := by simpa using hj
              simpa [List.getD_cons_zero, List.getD_cons_succ, List.set_cons_succ]
                using cons_getD_set_perm xs j x d hjx
      | succ i =>
          cases j with
          | zero =>
              have hix : i < xs.length := by simpa using hi
              simpa [List.getD_cons_zero, List.getD_cons_succ, List.set_cons_succ]
                using cons_getD_set_perm xs i x d hix
          | succ j =>
              have hix : i < xs.length := by simpa using hi
              have hjx : j < xs.length := by simpa using hj
              simpa [List.getD_cons_succ, List.set_cons_succ]
                using (ih i j d hix hjx).cons x

lemma pyRandint0_ok (n r p : Nat) (h : pyRandint0 n r = .ok p) : p < n := by
  unfold pyRandint0 at h
  split at h
  · exact absurd h (by simp)
  · obtain rfl : r % n = p := by simpa using h
    exact Nat.mod_lt _ (by omega)

lemma set_preserving_ids (ind : List Gene) (idx : Nat) (g2 : Gene)
    (hidx : idx < ind.length)
    (hid : g2.entity_id = (ind.getD idx dGene).entity_id) :
    (ind.set idx g2).map Gene.entity_id = ind.map Gene.entity_id := by
  rw [List.map_set, hid]
  have hg : Gene.entity_id (ind.getD idx dGene) =
      (ind.map Gene.entity_id).getD idx (Gene.entity_id dGene) :=
    (getD_map Gene.entity_id ind idx dGene hidx).symm
  rw [hg]
  exact set_getD_self _ idx _ (by simpa using hidx)

lemma mutate_preserves_ids (cfg : Config) (dr : MutDraw) (ind out : Ind)
    (h : mutate_schedule cfg dr ind = .ok out) :
    (out.map Gene.entity_id).Perm (ind.map Gene.entity_id) := by
  unfold mutate_schedule at h
  split_ifs at h with hfire hswap hlen hshift hrand
  · obtain ⟨ij, hij, h⟩ := (bind_ok_iff _ _ _).mp h
    have hout := (Except.ok.injEq _ _).mp h
    subst hout
    obtain ⟨hn2, hi, hj, hne⟩ :=
      pySample2_ok ind.length dr.i dr.j ij.1 ij.2 (by simpa using hij)
    rw [List.map_set, List.map_set, ← getD_map Gene.entity_id ind ij.2 dGene hj,
      ← getD_map Gene.entity_id ind ij.1 dGene hi]
    exact set_set_perm (ind.map Gene.entity_id) ij.1 ij.2 (Gene.entity_id dGene)
      (by simpa using hi) (by simpa using hj)
  · have hout := (Except.ok.injEq _ _).mp h
    subst hout
    exact List.Perm.refl _
  · obtain ⟨idx, hidx, h⟩ := (bind_ok_iff _ _ _).mp h
    have hlt := pyRandint0_ok ind.length dr.i idx hidx
    obtain ⟨fld, hfld, h⟩ := (bind_ok_iff _ _ _).mp h
    split_ifs at h with hfd hft
    · obtain ⟨v, hv, h⟩ := (bind_ok_iff _ _ _).mp h
      have hout := (Except.ok.injEq _ _).mp h
      subst hout
      rw [set_preserving_ids ind idx { ind.getD idx dGene with day := v } hlt rfl]
    · obtain ⟨v, hv, h⟩ := (bind_ok_iff _ _ _).mp h
      have hout := (Except.ok.injEq _ _).mp h
      subst hout
      rw [set_preserving_ids ind idx { ind.getD idx dGene with time := v } hlt rfl]
    · obtain ⟨v, hv, h⟩ := (bind_ok_iff _ _ _).mp h
      have hout := (Except.ok.injEq _ _).mp h
      subst hout
      rw [set_preserving_ids ind idx { ind.getD idx dGene with room := v } hlt rfl]
  · obtain ⟨idx, hidx, h⟩ := (bind_ok_iff _ _ _).mp h
    have hlt := pyRandint0_ok ind.length dr.i idx hidx
    obtain ⟨d, hd, h⟩ := (bind_ok_iff _ _ _).mp h
    obtain ⟨t, ht, h⟩ := (bind_ok_iff _ _ _).mp h
    obtain ⟨r, hrr, h⟩ := (bind_ok_iff _ _ _).mp h
    have hout := (Except.ok.injEq _ _).mp h
    subst hout
    rw [set_preserving_ids ind idx
      { ind.getD idx dGene with day := d, time := t, room := r } hlt rfl]
  · have hout := (Except.ok.injEq _ _).mp h
    subst hout
    exact List.Perm.refl _
  · have hout := (Except.ok.injEq _ _).mp h
    subst hout
    exact List.Perm.refl _

/-- C1 (amended): at every generation of any `evolve` run every
Individual's genome length equals the entity count, and `mutate_schedule`
(under every strategy) preserves the multiset of `entity_id`s of the
genome it mutates.  The stronger claim — that the `entity_id` multiset
always equals the input id set with each id exactly once — fails on the
code: `swap` reorders whole genes and two-point crossover between
differently ordered genomes can duplicate one id and drop another (see
the counterexample). -/
theorem evolve_length_invariant_and_mutation_preserves_ids (cfg : Config)
    (ents : List Entity) (cons : List Constraint) (orcl : EvoOrcl) :
    (∀ (g : Nat) (st : EvoState), gaTrace cfg ents cons orcl g = .ok st →
      ∀ ind ∈ st.pop, ind.length = ents.length) ∧
    (∀ (dr : MutDraw) (ind out : Ind), mutate_schedule cfg dr ind = .ok out →
      (out.map Gene.entity_id).Perm (ind.map Gene.entity_id)) := by
  constructor
  · intro g st h ind hind
    unfold gaTrace at h
    obtain ⟨p0, hp0, hrun⟩ := (bind_ok_iff _ _ _).mp h
    have hinit : ∀ i ∈ p0, i.length = ents.length :=
      initPopAux_length cfg ents _ _ 0 p0 (by simpa [initPop] using hp0)
    exact runGens_length cfg ents cons orcl (List.range g)
      { pop := p0, hof := none, hist := [], stopped := false } st hinit hrun ind hind
  · exact fun dr ind out h => mutate_preserves_ids cfg dr ind out h

/-- Entities of the C1 counterexample run. -/
def c1Ents : List Entity :=
  [{ id := "e1", name := some "E1", duration := some 1, capacity_needed := none },
   { id := "e2", name := some "E2", duration := some 1, capacity_needed := none }]

/-- A single `no_overlap` constraint. -/
def c1Cons : List Constraint :=
  [{ type := "no_overlap", entity_id := none, unavailable_slots := [], preferred_slots := [] }]

/-- Two individuals, three generations, tournament size 1, a single
resource slot (so fitness stays at 900 and the run never stops early);
`swap` is the default mutation strategy. -/
def c1Config : Config :=
  { defaultConfig with population_size := 2, generations := 3, tournament_size := 1,
                       days := ["Mon"], time_slots := ["9:00"], rooms := ["R1"] }

/-- Draws for the counterexample run: in generation 0 the first offspring
is swap-mutated (reordering its two genes); in generation 1 the pair is
crossed over at cut points (1, 2); nothing else fires. -/
def c1Orcl : EvoOrcl :=
  { initPick := fun _ _ => (0, 0, 0),
    selPick := fun _ r _ => r,
    cxR := fun g _ => if g = 1 then qofNat 0 else qofNat 1,
    cx1 := fun _ _ => 0, cx2 := fun _ _ => 0,
    mutOf := fun g k =>
      { r := if g = 0 ∧ k = 0 then qofNat 0 else qofNat 1,
        i := 0, j := 0, fieldR := 0, dayR := 0, timeR := 0, roomR := 0 } }

/-- C1 counterexample: in this three-generation run the population at
generation 2 contains an Individual whose genes carry entity_id "e2"
twice and "e1" not at all — the swap mutation of generation 0 reordered
one genome and the two-point crossover of generation 1 then duplicated a
gene across the differently ordered parents.  The multiset of entity_ids
therefore does not equal the input id set with each id exactly once. -/
theorem evolve_population_duplicate_entity_id :
    (match gaTrace c1Config c1Ents c1Cons c1Orcl 2 with
     | .ok st => (st.pop.getD 0 []).map Gene.entity_id
     | .error _ => []) = ["e2", "e2"] ∧
    c1Ents.length = 2 ∧ (["e2", "e2"].count "e1" = 0) := by
  refine ⟨rfl, rfl, by decide⟩

/-- The initial state of the counterexample run, used as the witness
instance for the amended C1 theorem. -/
def c1wState0 : EvoState :=
  match gaTrace c1Config c1Ents c1Cons c1Orcl 0 with
  | .ok st => st
  | .error _ => { pop := [], hof := none, hist := [], stopped := false }

/-- Witness for C1 (amended): the genome-length invariant at generation 0
of the concrete run. -/
theorem evolve_length_invariant_and_mutation_preserves_ids_witness :
    (c1wState0.pop.getD 0 []).length = c1Ents.length := by
  have h := (evolve_length_invariant_and_mutation_preserves_ids
    c1Config c1Ents c1Cons c1Orcl).1 0 c1wState0 rfl
  refine h _ ?_
  decide

/-- Witness for C2 (amended) on a concrete two-gene individual: the whole
records at the two sampled positions are exchanged. -/
theorem mutate_swap_exchanges_whole_genes_witness :
    mutate_schedule defaultConfig
        { r := qofNat 0, i := 0, j := 0, fieldR := 0, dayR := 0, timeR := 0, roomR := 0 }
        [{ entity_id := "a1", entity_name := "A1", day := "Wed", time := "10:00", room := "R102",
           duration := 2 },
         { entity_id := "a2", entity_name := "A2", day := "Thu", time := "11:00", room := "R103",
           duration := 3 }] =
      .ok (([{ entity_id := "a1", entity_name := "A1", day := "Wed", time := "10:00",
               room := "R102", duration := 2 },
             { entity_id := "a2", entity_name := "A2", day := "Thu", time := "11:00",
               room := "R103", duration := 3 }].set 0
              ([{ entity_id := "a1", entity_name := "A1", day := "Wed", time := "10:00",
                  room := "R102", duration := 2 },
                { entity_id := "a2", entity_name := "A2", day := "Thu", time := "11:00",
                  room := "R103", duration := 3 }].getD 1 dGene)).set 1
              ([{ entity_id := "a1", entity_name := "A1", day := "Wed", time := "10:00",
                  room := "R102", duration := 2 },
                { entity_id := "a2", entity_name := "A2", day := "Thu", time := "11:00",
                  room := "R103", duration := 3 }].getD 0 dGene)) :=
  (mutate_swap_exchanges_whole_genes defaultConfig
    { r := qofNat 0, i := 0, j := 0, fieldR := 0, dayR := 0, timeR := 0, roomR := 0 }
    [{ entity_id := "a1", entity_name := "A1", day := "Wed", time := "10:00", room := "R102",
       duration := 2 },
     { entity_id := "a2", entity_name := "A2", day := "Thu", time := "11:00", room := "R103",
       duration := 3 }] 0 1 rfl (by decide) (by decide) (by decide)).1
